import Mathlib

/-!
# Koinfo ledger-consistency engine: shallow embedding and verification

This file embeds the data model and the API operations of `app.py` (the
Koinfo personal-finance app) in Lean and proves the frozen claims about
them.  Python strings are modelled as `List Char`; Python floats (used
only for money amounts, which the claims treat algebraically) are
modelled as `ℚ`; dictionaries become structures; JSON payload fields
that may be absent become `Option`; fresh UUIDs become explicit
identifier parameters.  Each `api_*` endpoint returns `Except Err
Dataset`: an error response means the dataset is not saved, so replay
treats errors as no-ops.
-/

namespace Koinfo

/-- Shorthand turning a Lean string literal into the `List Char` model of
a Python string. -/
def lit (s : String) : List Char := s.data

/-- Models Python `str.casefold` on one character (ASCII case folding:
the app's names are ASCII). -/
def foldChar (c : Char) : Char :=
  if 65 ≤ c.toNat ∧ c.toNat ≤ 90 then Char.ofNat (c.toNat + 32) else c

/-- Models Python `str.casefold` (ASCII). -/
def casefold (s : List Char) : List Char := s.map foldChar

/-- Models Python whitespace for `str.strip`. -/
def isSpaceCh (c : Char) : Bool :=
  c.toNat = 32 || c.toNat = 9 || c.toNat = 10 || c.toNat = 13

/-- Models Python `str.strip`. -/
def pyStrip (s : List Char) : List Char :=
  ((s.dropWhile isSpaceCh).reverse.dropWhile isSpaceCh).reverse

/-- `.strip().casefold()`, the normalisation used for duplicate checks. -/
def normName (s : List Char) : List Char := casefold (pyStrip s)

/-- Models Python `s or d` for strings (`d` when `s` is empty). -/
def pyOrStr (s d : List Char) : List Char := if s = [] then d else s

/-- Models Python `p.get(k) or d` for an optional string field. -/
def pyOrOpt (s : Option (List Char)) (d : List Char) : List Char :=
  match s with
  | none => d
  | some v => pyOrStr v d

/-- Models Python truthiness of an optional string (`if cat_id:`). -/
def truthy (s : Option (List Char)) : Bool :=
  match s with
  | none => false
  | some v => !v.isEmpty

/-- Apply `f` to the first element satisfying `p` and keep the rest:
the Python `for ...: if ...: mutate; break` pattern. -/
def updateFirst (p : α → Bool) (f : α → α) : List α → List α
  | [] => []
  | x :: xs => if p x then f x :: xs else x :: updateFirst p f xs

/-- Replace the element at index `i` (the `data["categories"][i] = ...`
pattern); out-of-range indices leave the list unchanged. -/
def modAt : List α → Nat → (α → α) → List α
  | [], _, _ => []
  | x :: xs, 0, f => f x :: xs
  | x :: xs, n+1, f => x :: modAt xs n f

/-- Models Python `str(n)` for the decimal suffix in `f"{base} {i}"`. -/
def digitChar10 (d : Nat) : Char := Char.ofNat (48 + d)

/-- Little-endian decimal digits, by structural recursion on a fuel
bound (so that it evaluates inside the kernel); `digitsRev n n` agrees
with `Nat.digits 10 n`. -/
def digitsRev : Nat → Nat → List Nat
  | 0, _ => []
  | _+1, 0 => []
  | fuel+1, n+1 => (n+1) % 10 :: digitsRev fuel ((n+1) / 10)

/-- Models Python `str(n)` on a natural number. -/
def natRepr (n : Nat) : List Char :=
  if n = 0 then [digitChar10 0] else ((digitsRev n n).reverse).map digitChar10

-- ---------------------- Data model ----------------------

structure Category where
  id : List Char
  name : List Char
  type : List Char
  deleted : Bool
deriving DecidableEq

structure Debt where
  id : List Char
  name : List Char
  balance : ℚ
  kind : List Char
  linked_category_id : Option (List Char)
deriving DecidableEq

structure Goal where
  id : List Char
  name : List Char
  target : ℚ
  current : ℚ
  deadline : List Char
  created : List Char
  linked_category_id : Option (List Char)
deriving DecidableEq

structure Txn where
  id : List Char
  date : List Char
  category_id : Option (List Char)
  amount : ℚ
  note : List Char
  type : List Char
  use_open_balance : Bool
  debt_claim : Bool
  goal_withdrawal : Bool
deriving DecidableEq

structure Dataset where
  categories : List Category
  transactions : List Txn
  debts : List Debt
  goals : List Goal
  open_balance : ℚ
deriving DecidableEq

/-- Error kinds of the JSON API (§7 of the spec). -/
inductive Err where
  | validation
  | invalidCategory
  | duplicateName
  | linkedEntity
  | notFound
deriving DecidableEq

-- ---------------------- Request payloads ----------------------

structure CategoryPayload where
  name : Option (List Char)
  type : Option (List Char)
deriving DecidableEq

structure DebtPayload where
  name : Option (List Char)
  kind : Option (List Char)
  balance : Option ℚ
deriving DecidableEq

structure GoalPayload where
  name : Option (List Char)
  target : Option ℚ
  current : Option ℚ
  deadline : Option (List Char)
deriving DecidableEq

structure TxnPayload where
  date : Option (List Char)
  category_id : Option (List Char)
  amount : Option ℚ
  note : Option (List Char)
  use_open_balance : Option Bool
  debt_claim : Option Bool
  goal_withdrawal : Option Bool
deriving DecidableEq

-- ---------------------- Name helpers ----------------------

/-- The candidate names `f"{base} {i}"` tried by `_unique_name_excluding`. -/
def candName (base : List Char) (i : Nat) : List Char :=
  base ++ ' ' :: natRepr i

/-- The set of normalised names considered by `_unique_name_excluding`:
active (non-deleted) categories, ignoring one optional id. -/
def namesExcluding (data : Dataset) (exclude_id : Option (List Char)) : List (List Char) :=
  (data.categories.filter (fun c =>
      (match exclude_id with
       | some e => c.id != e
       | none => true) && !c.deleted)).map (fun c => normName c.name)

/-- The `while True` search of `_unique_name_excluding`, with explicit
fuel (the loop always terminates because the name set is finite; the
fuel supplied below is proved sufficient). -/
def findFreeName (names : List (List Char)) (base : List Char) : Nat → Nat → List Char
  | _, 0 => []
  | i, fuel+1 =>
    let cand := candName base i
    if casefold cand ∈ names then findFreeName names base (i+1) fuel else cand

/-- `_unique_name_excluding(data, desired, exclude_id)` from `app.py`. -/
def unique_name_excluding (data : Dataset) (desired : List Char)
    (exclude_id : Option (List Char)) : List Char :=
  let base := pyStrip desired
  let names := namesExcluding data exclude_id
  if casefold base ∈ names then findFreeName names base 2 (names.length + 1)
  else base

-- ---------------------- Linked category binder ----------------------

/-- `_ensure_linked_category_for_debt(data, debt)` from `app.py`.  The in
place Python mutation of `data` and `debt` is modelled by returning the
updated dataset, the updated debt and the linked category id; `freshId`
models the `uuid4` drawn when a new category is created. -/
def ensure_linked_category_for_debt (freshId : List Char) (data : Dataset)
    (debt : Debt) : Dataset × Debt × List Char :=
  let ctype := if pyOrStr debt.kind (lit "payable") = lit "payable"
               then lit "expense" else lit "income"
  let base := pyStrip (pyOrStr debt.name (lit "Debt")) ++ lit " - Debt"
  let cat_id := debt.linked_category_id
  if truthy cat_id && data.categories.any (fun c => some c.id == cat_id) then
    let cats1 := updateFirst (fun c => some c.id == cat_id) (fun c => { c with type := ctype }) data.categories
    let data1 := { data with categories := cats1 }
    let desired := unique_name_excluding data1 base cat_id
    let cats2 := updateFirst (fun c => some c.id == cat_id) (fun c => { c with name := desired }) data1.categories
    let data2 := { data1 with categories := cats2 }
    (data2, debt, cat_id.getD [])
  else
    let nm := unique_name_excluding data base none
    let newCat : Category := { id := freshId, name := nm, type := ctype, deleted := false }
    ({ data with categories := data.categories ++ [newCat] },
     { debt with linked_category_id := some freshId }, freshId)

/-- `_ensure_linked_category_for_goal(data, goal)` from `app.py`. -/
def ensure_linked_category_for_goal (freshId : List Char) (data : Dataset)
    (goal : Goal) : Dataset × Goal × List Char :=
  let ctype := lit "saving"
  let base := pyStrip (pyOrStr goal.name (lit "Goal")) ++ lit " - Goal"
  let cat_id := goal.linked_category_id
  if truthy cat_id && data.categories.any (fun c => some c.id == cat_id) then
    let cats1 := updateFirst (fun c => some c.id == cat_id) (fun c => { c with type := ctype }) data.categories
    let data1 := { data with categories := cats1 }
    let desired := unique_name_excluding data1 base cat_id
    let cats2 := updateFirst (fun c => some c.id == cat_id) (fun c => { c with name := desired }) data1.categories
    let data2 := { data1 with categories := cats2 }
    (data2, goal, cat_id.getD [])
  else
    let nm := unique_name_excluding data base none
    let newCat : Category := { id := freshId, name := nm, type := ctype, deleted := false }
    ({ data with categories := data.categories ++ [newCat] },
     { goal with linked_category_id := some freshId }, freshId)

/-- `_delete_linked_category(data, cat_id)` from `app.py`: soft-delete
the linked category in place. -/
def delete_linked_category (data : Dataset) (cat_id : Option (List Char)) : Dataset :=
  if truthy cat_id then
    let cats := updateFirst (fun c => some c.id == cat_id) (fun c => { c with deleted := true }) data.categories
    { data with categories := cats }
  else data

-- ---------------------- Date model ----------------------

/-- Models acceptance by Python's `date.fromisoformat` (stdlib, outside
the repo): a `YYYY-MM-DD` string with an in-range month and day. -/
def isoValid (s : List Char) : Bool :=
  match s with
  | [y1, y2, y3, y4, h1, m1, m2, h2, d1, d2] =>
    y1.isDigit && y2.isDigit && y3.isDigit && y4.isDigit &&
    h1 == '-' && m1.isDigit && m2.isDigit && h2 == '-' &&
    d1.isDigit && d2.isDigit &&
    (let m := (m1.toNat - 48) * 10 + (m2.toNat - 48)
     let d := (d1.toNat - 48) * 10 + (d2.toNat - 48)
     decide (1 ≤ m) && decide (m ≤ 12) && decide (1 ≤ d) && decide (d ≤ 31))
  | _ => false

/-- Models Python `date` ordering: valid zero-padded ISO dates compare
lexicographically. -/
def lexLe : List Char → List Char → Bool
  | [], _ => true
  | _ :: _, [] => false
  | a :: as, b :: bs => a.toNat < b.toNat || (a == b && lexLe as bs)

/-- Early-return sequencing of a fallible validation step (a Python
`return jsonify(error), 4xx` inside the handler aborts the whole
request). -/
def andThen (m : Except Err α) (f : α → Except Err β) : Except Err β :=
  match m with
  | .error e => .error e
  | .ok x => f x

-- ---------------------- Category endpoints ----------------------

/-- `api_add_category` (`POST /api/category`). -/
def api_add_category (newId : List Char) (p : CategoryPayload) (data : Dataset) :
    Except Err Dataset :=
  let name := pyStrip (pyOrOpt p.name [])
  let ctype := pyStrip (pyOrOpt p.type (lit "expense"))
  if name = [] then .error .validation
  else
    let active_names := (data.categories.filter (fun c => !c.deleted)).map (fun c => normName c.name)
    if casefold name ∈ active_names then .error .duplicateName
    else
      let new_cat : Category := { id := newId, name := name, type := ctype, deleted := false }
      .ok { data with categories := data.categories ++ [new_cat] }

/-- `api_update_category` (`PUT /api/category/<cid>`). -/
def api_update_category (cid : List Char) (p : CategoryPayload) (data : Dataset) :
    Except Err Dataset :=
  match data.categories.find? (fun c => c.id == cid) with
  | none => .error .notFound
  | some c =>
    let step1 : Except Err Category :=
      match p.name with
      | none => .ok c
      | some nmRaw =>
        let new_name := pyStrip nmRaw
        if new_name = [] then .error .validation
        else
          let active_names := (data.categories.filter (fun x => x.id != cid && !x.deleted)).map
            (fun x => normName x.name)
          if casefold new_name ≠ normName c.name ∧ casefold new_name ∈ active_names then
            .error .duplicateName
          else .ok { c with name := new_name }
    andThen step1 (fun c1 =>
      let c2 := match p.type with
                | none => c1
                | some t => { c1 with type := pyOrStr t c1.type }
      let cats := updateFirst (fun x => x.id == cid) (fun _ => c2) data.categories
      .ok { data with categories := cats })

/-- `api_delete_category` (`DELETE /api/category/<cid>`). -/
def api_delete_category (cid : List Char) (data : Dataset) : Except Err Dataset :=
  if data.debts.any (fun d => d.linked_category_id == some cid) ||
     data.goals.any (fun g => g.linked_category_id == some cid) then
    .error .linkedEntity
  else
    match data.categories.findIdx? (fun c => c.id == cid) with
    | none => .error .notFound
    | some cat_index =>
      let txn_count := (data.transactions.filter (fun t => t.category_id == some cid)).length
      if txn_count = 0 then
        .ok { data with categories := data.categories.eraseIdx cat_index }
      else
        let cats := modAt data.categories cat_index (fun c => { c with deleted := true })
        .ok { data with categories := cats }

-- ---------------------- Debt endpoints ----------------------

/-- `api_add_debt` (`POST /api/debt`).  `newDebtId` models the debt's
fresh uuid, `newCatId` the uuid drawn if a linked category is created. -/
def api_add_debt (newDebtId newCatId : List Char) (p : DebtPayload) (data : Dataset) :
    Except Err Dataset :=
  let name := pyStrip (pyOrOpt p.name (lit "Unnamed Debt"))
  let kind0 := pyStrip (pyOrOpt p.kind (lit "payable"))
  let kind := if kind0 = lit "payable" ∨ kind0 = lit "receivable" then kind0 else lit "payable"
  let names := data.debts.map (fun d => normName d.name)
  if casefold name ∈ names then .error .duplicateName
  else
    let d : Debt := { id := newDebtId, name := name, balance := p.balance.getD 0,
                      kind := kind, linked_category_id := none }
    let r := ensure_linked_category_for_debt newCatId data d
    .ok { r.1 with debts := r.1.debts ++ [r.2.1] }

/-- `api_update_debt` (`PUT /api/debt/<did>`). -/
def api_update_debt (did freshCatId : List Char) (p : DebtPayload) (data : Dataset) :
    Except Err Dataset :=
  match data.debts.find? (fun d => d.id == did) with
  | none => .error .notFound
  | some d =>
    let step1 : Except Err Debt :=
      match p.name with
      | none => .ok d
      | some nmRaw =>
        let new_name := pyStrip nmRaw
        if new_name = [] then .error .validation
        else if casefold new_name ≠ normName d.name then
          let names := (data.debts.filter (fun x => x.id != did)).map (fun x => normName x.name)
          if casefold new_name ∈ names then .error .duplicateName
          else .ok { d with name := new_name }
        else .ok { d with name := new_name }
    andThen step1 (fun d1 =>
      let d2 := match p.balance with
                | none => d1
                | some v => { d1 with balance := v }
      let d3 := match p.kind with
                | none => d2
                | some kv =>
                  let k := pyStrip (pyOrStr kv (lit "payable"))
                  if k = lit "payable" ∨ k = lit "receivable" then { d2 with kind := k } else d2
      let r := ensure_linked_category_for_debt freshCatId data d3
      let debts := updateFirst (fun x => x.id == did) (fun _ => r.2.1) r.1.debts
      .ok { r.1 with debts := debts })

/-- `api_delete_debt` (`DELETE /api/debt/<did>`). -/
def api_delete_debt (did : List Char) (data : Dataset) : Except Err Dataset :=
  let before := data.debts.length
  let cat_id := (data.debts.find? (fun d => d.id == did)).bind (fun d => d.linked_category_id)
  let data1 := { data with debts := data.debts.filter (fun d => d.id != did) }
  let data2 := delete_linked_category data1 cat_id
  if data2.debts.length = before then .error .notFound else .ok data2

-- ---------------------- Goal endpoints ----------------------

/-- `api_add_goal` (`POST /api/goal`).  `today` models
`date.today().isoformat()`. -/
def api_add_goal (newGoalId newCatId today : List Char) (p : GoalPayload) (data : Dataset) :
    Except Err Dataset :=
  let name := pyStrip (pyOrOpt p.name (lit "New Goal"))
  let deadline := pyStrip (pyOrOpt p.deadline [])
  if deadline = [] then .error .validation
  else if !isoValid deadline then .error .validation
  else if lexLe deadline today then .error .validation
  else
    let names := data.goals.map (fun g => normName g.name)
    if casefold name ∈ names then .error .duplicateName
    else
      let g : Goal := { id := newGoalId, name := name, target := p.target.getD 0,
                        current := 0, deadline := deadline, created := today,
                        linked_category_id := none }
      let r := ensure_linked_category_for_goal newCatId data g
      .ok { r.1 with goals := r.1.goals ++ [r.2.1] }

/-- `api_update_goal` (`PUT /api/goal/<gid>`). -/
def api_update_goal (gid freshCatId today : List Char) (p : GoalPayload) (data : Dataset) :
    Except Err Dataset :=
  match data.goals.find? (fun g => g.id == gid) with
  | none => .error .notFound
  | some g =>
    let step1 : Except Err Goal :=
      match p.name with
      | none => .ok g
      | some nmRaw =>
        let new_name := pyStrip nmRaw
        if new_name = [] then .error .validation
        else if casefold new_name ≠ normName g.name then
          let names := (data.goals.filter (fun x => x.id != gid)).map (fun x => normName x.name)
          if casefold new_name ∈ names then .error .duplicateName
          else .ok { g with name := new_name }
        else .ok { g with name := new_name }
    andThen step1 (fun g1 =>
      let g2 := match p.target with
                | none => g1
                | some v => { g1 with target := v }
      let step2 : Except Err Goal :=
        match p.deadline with
        | none => .ok g2
        | some dl =>
          let dstr := pyOrStr dl []
          if !isoValid dstr then .error .validation
          else if lexLe dstr today then .error .validation
          else .ok { g2 with deadline := dl }
      andThen step2 (fun g3 =>
        let r := ensure_linked_category_for_goal freshCatId data g3
        let goals := updateFirst (fun x => x.id == gid) (fun _ => r.2.1) r.1.goals
        .ok { r.1 with goals := goals }))

/-- `api_delete_goal` (`DELETE /api/goal/<gid>`). -/
def api_delete_goal (gid : List Char) (data : Dataset) : Except Err Dataset :=
  let before := data.goals.length
  let cat_id := (data.goals.find? (fun g => g.id == gid)).bind (fun g => g.linked_category_id)
  let data1 := { data with goals := data.goals.filter (fun g => g.id != gid) }
  let data2 := delete_linked_category data1 cat_id
  if data2.goals.length = before then .error .notFound else .ok data2

-- ---------------------- Ledger effect engine ----------------------

/-- `_debt_effect(kind, amount, debt_claim)` from `app.py` (defined
identically inside `api_add_txn`, `api_update_txn`, `api_delete_txn`). -/
def debt_effect (kind : List Char) (amount : ℚ) (debt_claim : Bool) : ℚ :=
  let amt := |amount|
  if debt_claim then
    if pyOrStr kind (lit "payable") = lit "receivable" then amt else -amt
  else -amt

/-- `_goal_effect(amount, goal_withdrawal)` from `app.py`. -/
def goal_effect (amount : ℚ) (goal_withdrawal : Bool) : ℚ :=
  if goal_withdrawal then -amount else amount

/-- Apply a balance delta (clamped at 0) to the first debt linked to
`cat`: the `for d in debts: if linked == cat: balance = max(0, ...)`
loops of `app.py`. -/
def adjDebts (cat : Option (List Char)) (amt : ℚ) (dc : Bool) (sign : ℚ)
    (debts : List Debt) : List Debt :=
  updateFirst (fun d => d.linked_category_id == cat)
    (fun d => { d with balance := max 0 (d.balance + sign * debt_effect d.kind amt dc) })
    debts

/-- Apply a progress delta (clamped at 0) to the first goal linked to
`cat`. -/
def adjGoals (cat : Option (List Char)) (amt : ℚ) (gw : Bool) (sign : ℚ)
    (goals : List Goal) : List Goal :=
  updateFirst (fun g => g.linked_category_id == cat)
    (fun g => { g with current := max 0 (g.current + sign * goal_effect amt gw) })
    goals

/-- `api_add_txn` (`POST /api/transaction`). -/
def api_add_txn (newId today : List Char) (p : TxnPayload) (data : Dataset) :
    Except Err Dataset :=
  let txn : Txn := {
    id := newId,
    date := pyOrOpt p.date today,
    category_id := p.category_id,
    amount := p.amount.getD 0,
    note := p.note.getD [],
    type := [],
    use_open_balance := p.use_open_balance.getD false,
    debt_claim := p.debt_claim.getD false,
    goal_withdrawal := p.goal_withdrawal.getD false }
  match data.categories.find? (fun c => some c.id == txn.category_id) with
  | none => .error .invalidCategory
  | some c =>
    let txn := { txn with type := c.type }
    let data1 := { data with transactions := data.transactions ++ [txn] }
    let data2 := { data1 with debts := adjDebts txn.category_id txn.amount txn.debt_claim 1 data1.debts }
    let data3 := { data2 with goals := adjGoals txn.category_id txn.amount txn.goal_withdrawal 1 data2.goals }
    .ok data3

/-- Merged category id of a transaction update request
(`p.get("category_id", old["category_id"])`). -/
def mergeCat (old : Txn) (p : TxnPayload) : Option (List Char) :=
  match p.category_id with
  | some v => some v
  | none => old.category_id

/-- `api_update_txn` (`PUT /api/transaction/<tid>`). -/
def api_update_txn (tid : List Char) (p : TxnPayload) (data : Dataset) :
    Except Err Dataset :=
  match data.transactions.find? (fun t => t.id == tid) with
  | none => .error .notFound
  | some old =>
    let old_cat := old.category_id
    let old_amt := old.amount
    let old_debt_claim := old.debt_claim
    let old_goal_withdrawal := old.goal_withdrawal
    let new_date := p.date.getD old.date
    let new_cat := mergeCat old p
    let new_amt := p.amount.getD old.amount
    let new_note := p.note.getD old.note
    let new_use_open := p.use_open_balance.getD old.use_open_balance
    let new_debt_claim := p.debt_claim.getD old_debt_claim
    let new_goal_withdrawal := p.goal_withdrawal.getD old_goal_withdrawal
    match data.categories.find? (fun c => some c.id == new_cat) with
    | none => .error .invalidCategory
    | some cat =>
      let data1 :=
        if truthy old_cat then
          let da := { data with debts := adjDebts old_cat old_amt old_debt_claim (-1) data.debts }
          { da with goals := adjGoals old_cat old_amt old_goal_withdrawal (-1) da.goals }
        else data
      let data2 :=
        if truthy new_cat then
          let db := { data1 with debts := adjDebts new_cat new_amt new_debt_claim 1 data1.debts }
          { db with goals := adjGoals new_cat new_amt new_goal_withdrawal 1 db.goals }
        else data1
      let newTxn : Txn := {
        id := old.id, date := new_date, category_id := new_cat, amount := new_amt,
        note := new_note, type := cat.type, use_open_balance := new_use_open,
        debt_claim := new_debt_claim, goal_withdrawal := new_goal_withdrawal }
      let txns := updateFirst (fun t => t.id == tid) (fun _ => newTxn) data2.transactions
      .ok { data2 with transactions := txns }

/-- `api_delete_txn` (`DELETE /api/transaction/<tid>`). -/
def api_delete_txn (tid : List Char) (data : Dataset) : Except Err Dataset :=
  match data.transactions.find? (fun t => t.id == tid) with
  | none => .error .notFound
  | some txn =>
    let data1 := { data with debts := adjDebts txn.category_id txn.amount txn.debt_claim (-1) data.debts }
    let data2 := { data1 with goals := adjGoals txn.category_id txn.amount txn.goal_withdrawal (-1) data1.goals }
    .ok { data2 with transactions := data2.transactions.filter (fun t => t.id != tid) }

-- ---------------------- Opening balance and reset ----------------------

/-- `api_update_open_balance` (`PUT /api/open_balance`). -/
def api_update_open_balance (p : Option ℚ) (data : Dataset) : Except Err Dataset :=
  .ok { data with open_balance := p.getD 0 }

/-- `DEFAULT_DATA` from `app.py`; the three uuids drawn at import time
are explicit parameters. -/
def DEFAULT_DATA (id1 id2 id3 : List Char) : Dataset :=
  { categories := [
      { id := id1, name := lit "Salary", type := lit "income", deleted := false },
      { id := id2, name := lit "Groceries", type := lit "expense", deleted := false },
      { id := id3, name := lit "Investments", type := lit "saving", deleted := false } ],
    transactions := [], debts := [], goals := [], open_balance := 0 }

/-- `api_reset_data` (`POST /api/reset_data`). -/
def api_reset_data (id1 id2 id3 : List Char) (_data : Dataset) : Except Err Dataset :=
  .ok (DEFAULT_DATA id1 id2 id3)

-- ---------------------- Operation sequences ----------------------

/-- One API mutation, with all fresh uuids made explicit. -/
inductive Op where
  | catAdd (newId : List Char) (p : CategoryPayload)
  | catUpdate (cid : List Char) (p : CategoryPayload)
  | catDelete (cid : List Char)
  | debtAdd (newId newCatId : List Char) (p : DebtPayload)
  | debtUpdate (did freshCatId : List Char) (p : DebtPayload)
  | debtDelete (did : List Char)
  | goalAdd (newId newCatId today : List Char) (p : GoalPayload)
  | goalUpdate (gid freshCatId today : List Char) (p : GoalPayload)
  | goalDelete (gid : List Char)
  | txnAdd (newId today : List Char) (p : TxnPayload)
  | txnUpdate (tid : List Char) (p : TxnPayload)
  | txnDelete (tid : List Char)
  | openBalance (v : Option ℚ)
  | reset (id1 id2 id3 : List Char)
deriving DecidableEq

/-- Run one operation, returning the API outcome. -/
def runOp : Op → Dataset → Except Err Dataset
  | .catAdd newId p => api_add_category newId p
  | .catUpdate cid p => api_update_category cid p
  | .catDelete cid => api_delete_category cid
  | .debtAdd a b p => api_add_debt a b p
  | .debtUpdate a b p => api_update_debt a b p
  | .debtDelete did => api_delete_debt did
  | .goalAdd a b c p => api_add_goal a b c p
  | .goalUpdate a b c p => api_update_goal a b c p
  | .goalDelete gid => api_delete_goal gid
  | .txnAdd a b p => api_add_txn a b p
  | .txnUpdate tid p => api_update_txn tid p
  | .txnDelete tid => api_delete_txn tid
  | .openBalance v => api_update_open_balance v
  | .reset a b c => api_reset_data a b c

/-- An error response is never saved, so a failing operation leaves the
persisted dataset unchanged. -/
def applyOp (data : Dataset) (op : Op) : Dataset :=
  match runOp op data with
  | .ok d => d
  | .error _ => data

/-- Replay a sequence of operations. -/
def applyOps (data : Dataset) : List Op → Dataset
  | [] => data
  | op :: ops => applyOps (applyOp data op) ops

-- ---------------------- Derived notions used by the claims ----------------------

/-- The first debt linked to category `cat` (the one every transaction
loop in `app.py` hits). -/
def firstDebt (cat : List Char) (data : Dataset) : Option Debt :=
  data.debts.find? (fun x => x.linked_category_id == some cat)

/-- The first goal linked to category `cat`. -/
def firstGoal (cat : Option (List Char)) (data : Dataset) : Option Goal :=
  data.goals.find? (fun x => x.linked_category_id == cat)

/-- The contribution of one transaction to a debt linked to `cat`. -/
def txnContrib (cat kind : List Char) (t : Txn) : ℚ :=
  if t.category_id = some cat then debt_effect kind t.amount t.debt_claim else 0

/-- Full recompute from scratch: sum `debt_effect` over the live
transactions recorded against `cat`. -/
def recomputeDebt (cat kind : List Char) (txns : List Txn) : ℚ :=
  ((txns.filter (fun t => t.category_id == some cat)).map
    (fun t => debt_effect kind t.amount t.debt_claim)).sum

/-- Every debt balance and goal progress in the dataset is `≥ 0`. -/
def NonnegData (data : Dataset) : Prop :=
  (∀ x ∈ data.debts, 0 ≤ x.balance) ∧ (∀ g ∈ data.goals, 0 ≤ g.current)

/-- The amended hypothesis for the non-negativity claim: any `balance`
field carried by a debt create/update payload is itself non-negative
(those two endpoints store it unclamped). -/
def opBalancePayloadNonneg : Op → Prop
  | .debtAdd _ _ p => 0 ≤ p.balance.getD 0
  | .debtUpdate _ _ p => ∀ v, p.balance = some v → 0 ≤ v
  | _ => True

/-- Operations whose handler never reads or writes the `goals` list. -/
def goalFrameOp : Op → Bool
  | .catAdd _ _ => true
  | .catUpdate _ _ => true
  | .catDelete _ => true
  | .debtAdd _ _ _ => true
  | .debtUpdate _ _ _ => true
  | .debtDelete _ => true
  | .openBalance _ => true
  | _ => false

/-- Whether an owner's `linked_category_id` is truthy and resolves to a
category of the dataset (the update path of the binder). -/
def linkedResolves (data : Dataset) (cid : Option (List Char)) : Bool :=
  truthy cid && data.categories.any (fun c => some c.id == cid)

/-- Per-operation side condition for the replay claim: the operation is
a transaction mutation, fresh transaction uuids really are fresh, and no
`max(0, ...)` clamp fires on the debt linked to `cat` while the
operation runs.  (The claim reads "modulo the per-operation clamping".) -/
def txnOpOk (cat : List Char) (data : Dataset) : Op → Prop
  | .txnAdd newId _ p =>
      (∀ t ∈ data.transactions, t.id ≠ newId) ∧
      (data.categories.any (fun c => some c.id == p.category_id) = true →
        p.category_id = some cat →
        ∀ db, firstDebt cat data = some db →
          0 ≤ db.balance + debt_effect db.kind (p.amount.getD 0) (p.debt_claim.getD false))
  | .txnUpdate tid p =>
      ∀ old, data.transactions.find? (fun t => t.id == tid) = some old →
        data.categories.any (fun c => some c.id == mergeCat old p) = true →
        ∀ db, firstDebt cat data = some db →
          (old.category_id = some cat →
            0 ≤ db.balance - debt_effect db.kind old.amount old.debt_claim) ∧
          (mergeCat old p = some cat →
            0 ≤ (if old.category_id = some cat then
                    db.balance - debt_effect db.kind old.amount old.debt_claim
                  else db.balance) +
                 debt_effect db.kind (p.amount.getD old.amount) (p.debt_claim.getD old.debt_claim))
  | .txnDelete tid =>
      ∀ old, data.transactions.find? (fun t => t.id == tid) = some old →
        old.category_id = some cat →
        ∀ db, firstDebt cat data = some db →
          0 ≤ db.balance - debt_effect db.kind old.amount old.debt_claim
  | _ => False

/-- A clamp-free sequence of transaction operations. -/
def seqOk (cat : List Char) (data : Dataset) : List Op → Prop
  | [] => True
  | op :: ops => txnOpOk cat data op ∧ seqOk cat (applyOp data op) ops

-- ---------------------- Generic list lemmas ----------------------

theorem length_updateFirst (p : α → Bool) (f : α → α) (l : List α) :
    (updateFirst p f l).length = l.length := by
  induction l with
  | nil => rfl
  | cons x xs ih =>
    simp only [updateFirst]
    split
    · rfl
    · simp [ih]

theorem updateFirst_of_find?_none (p : α → Bool) (f : α → α) (l : List α)
    (h : l.find? p = none) : updateFirst p f l = l := by
  induction l with
  | nil => rfl
  | cons x xs ih =>
    cases hp : p x with
    | true => simp [List.find?, hp] at h
    | false =>
      simp only [List.find?, hp] at h
      simp [updateFirst, hp, ih h]

theorem updateFirst_of_fix (p : α → Bool) (f : α → α) (l : List α) (x : α)
    (h : l.find? p = some x) (hfix : f x = x) : updateFirst p f l = l := by
  induction l with
  | nil => simp [List.find?] at h
  | cons y ys ih =>
    cases hp : p y with
    | true =>
      simp only [List.find?, hp] at h
      injection h with h
      subst h
      simp [updateFirst, hp, hfix]
    | false =>
      simp only [List.find?, hp] at h
      simp [updateFirst, hp, ih h]

theorem find?_updateFirst (p : α → Bool) (f : α → α) (l : List α)
    (h : ∀ a, p (f a) = p a) :
    (updateFirst p f l).find? p = (l.find? p).map f := by
  induction l with
  | nil => rfl
  | cons x xs ih =>
    cases hp : p x with
    | true => simp [updateFirst, List.find?, hp, h]
    | false => simp [updateFirst, List.find?, hp, ih]

theorem find?_updateFirst_disj (p q : α → Bool) (f : α → α) (l : List α)
    (h1 : ∀ a, q a = true → p a = false) (h2 : ∀ a, p (f a) = p a) :
    (updateFirst q f l).find? p = l.find? p := by
  induction l with
  | nil => rfl
  | cons x xs ih =>
    cases hq : q x with
    | true =>
      have hx : p x = false := h1 x hq
      simp [updateFirst, List.find?, hq, hx, h2]
    | false => simp [updateFirst, List.find?, hq, ih]

theorem updateFirst_updateFirst (p : α → Bool) (f g : α → α) (l : List α)
    (h : ∀ a, p (f a) = p a) :
    updateFirst p g (updateFirst p f l) = updateFirst p (fun a => g (f a)) l := by
  induction l with
  | nil => rfl
  | cons x xs ih =>
    cases hp : p x with
    | true => simp [updateFirst, hp, h]
    | false => simp [updateFirst, hp, ih]

theorem mem_updateFirst {x : α} (p : α → Bool) (f : α → α) (l : List α)
    (h : x ∈ updateFirst p f l) : x ∈ l ∨ ∃ y ∈ l, x = f y := by
  induction l with
  | nil => simp [updateFirst] at h
  | cons y ys ih =>
    by_cases hp : p y = true
    · simp only [updateFirst, hp, if_pos] at h
      rcases List.mem_cons.mp h with h | h
      · exact Or.inr ⟨y, List.mem_cons_self y ys, h⟩
      · exact Or.inl (List.mem_cons_of_mem y h)
    · simp only [updateFirst, hp, if_neg, if_false] at h
      rcases List.mem_cons.mp h with h | h
      · exact Or.inl (h ▸ List.mem_cons_self y ys)
      · rcases ih h with h | ⟨z, hz, hxz⟩
        · exact Or.inl (List.mem_cons_of_mem y h)
        · exact Or.inr ⟨z, List.mem_cons_of_mem y hz, hxz⟩

theorem map_updateFirst (p : α → Bool) (f : α → α) (m : α → β) (l : List α)
    (h : ∀ a, m (f a) = m a) :
    (updateFirst p f l).map m = l.map m := by
  induction l with
  | nil => rfl
  | cons x xs ih =>
    cases hp : p x with
    | true => simp [updateFirst, hp, h]
    | false => simp [updateFirst, hp, ih]

theorem andThen_ok {m : Except Err α} {f : α → Except Err β} {r : β}
    (h : andThen m f = .ok r) : ∃ x, m = .ok x ∧ f x = .ok r := by
  cases m with
  | error e => exact Except.noConfusion h
  | ok x => exact ⟨x, rfl, h⟩

-- ---------------------- Facts about the binder ----------------------

theorem ensure_debt_debts (f : List Char) (da : Dataset) (db : Debt) :
    (ensure_linked_category_for_debt f da db).1.debts = da.debts := by
  unfold ensure_linked_category_for_debt
  by_cases h : (truthy db.linked_category_id && da.categories.any fun c => some c.id == db.linked_category_id) = true <;>
    simp [h]

theorem ensure_debt_goals (f : List Char) (da : Dataset) (db : Debt) :
    (ensure_linked_category_for_debt f da db).1.goals = da.goals := by
  unfold ensure_linked_category_for_debt
  by_cases h : (truthy db.linked_category_id && da.categories.any fun c => some c.id == db.linked_category_id) = true <;>
    simp [h]

theorem ensure_debt_txns (f : List Char) (da : Dataset) (db : Debt) :
    (ensure_linked_category_for_debt f da db).1.transactions = da.transactions := by
  unfold ensure_linked_category_for_debt
  by_cases h : (truthy db.linked_category_id && da.categories.any fun c => some c.id == db.linked_category_id) = true <;>
    simp [h]

theorem ensure_debt_balance (f : List Char) (da : Dataset) (db : Debt) :
    (ensure_linked_category_for_debt f da db).2.1.balance = db.balance := by
  unfold ensure_linked_category_for_debt
  by_cases h : (truthy db.linked_category_id && da.categories.any fun c => some c.id == db.linked_category_id) = true <;>
    simp [h]

theorem ensure_goal_debts (f : List Char) (da : Dataset) (g : Goal) :
    (ensure_linked_category_for_goal f da g).1.debts = da.debts := by
  unfold ensure_linked_category_for_goal
  by_cases h : (truthy g.linked_category_id && da.categories.any fun c => some c.id == g.linked_category_id) = true <;>
    simp [h]

theorem ensure_goal_goals (f : List Char) (da : Dataset) (g : Goal) :
    (ensure_linked_category_for_goal f da g).1.goals = da.goals := by
  unfold ensure_linked_category_for_goal
  by_cases h : (truthy g.linked_category_id && da.categories.any fun c => some c.id == g.linked_category_id) = true <;>
    simp [h]

theorem ensure_goal_txns (f : List Char) (da : Dataset) (g : Goal) :
    (ensure_linked_category_for_goal f da g).1.transactions = da.transactions := by
  unfold ensure_linked_category_for_goal
  by_cases h : (truthy g.linked_category_id && da.categories.any fun c => some c.id == g.linked_category_id) = true <;>
    simp [h]

theorem ensure_goal_current (f : List Char) (da : Dataset) (g : Goal) :
    (ensure_linked_category_for_goal f da g).2.1.current = g.current := by
  unfold ensure_linked_category_for_goal
  by_cases h : (truthy g.linked_category_id && da.categories.any fun c => some c.id == g.linked_category_id) = true <;>
    simp [h]

theorem delete_linked_debts (da : Dataset) (cid : Option (List Char)) :
    (delete_linked_category da cid).debts = da.debts := by
  unfold delete_linked_category
  split <;> rfl

theorem delete_linked_goals (da : Dataset) (cid : Option (List Char)) :
    (delete_linked_category da cid).goals = da.goals := by
  unfold delete_linked_category
  split <;> rfl

-- ---------------------- C3 ----------------------

/-- C3: with `a = |amount|` the debt effect is `+a` exactly when
`debt_claim` is set and the kind is `receivable`; it is `-a` when
`debt_claim` is set and the kind is anything else, and `-a` whenever
`debt_claim` is unset, regardless of kind. -/
theorem debt_effect_spec (kind : List Char) (a : ℚ) :
    debt_effect kind a true = (if kind = lit "receivable" then |a| else -|a|) ∧
    debt_effect kind a false = -|a| := by
  refine ⟨?_, by simp [debt_effect]⟩
  simp only [debt_effect, pyOrStr, if_true]
  by_cases h : kind = []
  · subst h
    have h1 : (if ([] : List Char) = [] then lit "payable" else ([] : List Char)) = lit "payable" :=
      if_pos rfl
    simp only [h1, if_true, if_neg (show ¬lit "payable" = lit "receivable" by decide),
      if_neg (show ¬([] : List Char) = lit "receivable" by decide)]
  · simp only [if_neg h]

-- ---------------------- C4 ----------------------

theorem adjDebts_nonneg {l : List Debt} (cat : Option (List Char)) (amt : ℚ) (dc : Bool)
    (sign : ℚ) (h : ∀ y ∈ l, 0 ≤ y.balance) :
    ∀ x ∈ adjDebts cat amt dc sign l, 0 ≤ x.balance := by
  intro x hx
  rcases mem_updateFirst _ _ _ hx with h1 | ⟨y, hy, hxy⟩
  · exact h x h1
  · subst hxy
    exact le_max_left 0 _

theorem adjGoals_nonneg {l : List Goal} (cat : Option (List Char)) (amt : ℚ) (gw : Bool)
    (sign : ℚ) (h : ∀ y ∈ l, 0 ≤ y.current) :
    ∀ x ∈ adjGoals cat amt gw sign l, 0 ≤ x.current := by
  intro x hx
  rcases mem_updateFirst _ _ _ hx with h1 | ⟨y, hy, hxy⟩
  · exact h x h1
  · subst hxy
    exact le_max_left 0 _

/-- C4 counterexample: the non-negativity claim fails as stated, because
`api_add_debt` stores a payload `balance` without clamping: creating a
debt with balance `-50` on the empty dataset persists a negative
balance. -/
theorem nonneg_claim_counterexample :
    NonnegData (Dataset.mk [] [] [] [] 0) ∧
    ¬ NonnegData (applyOp (Dataset.mk [] [] [] [] 0)
        (Op.debtAdd (lit "d1") (lit "c1")
          (DebtPayload.mk (some (lit "Loan")) none (some (-50))))) := by
  constructor
  · exact ⟨by simp, by simp⟩
  · simp only [NonnegData, applyOp, runOp]
    decide

/-- C4 (amended): replaying any endpoint preserves non-negativity of
every `Debt.balance` and `Goal.current`, provided any `balance` field
carried by a debt create/update payload is itself non-negative — the
debt create/update endpoints store the payload balance unclamped (see
the counterexample), while every other balance/progress write clamps
with `max 0`. -/
theorem nonneg_preserved_amended (op : Op) (d : Dataset)
    (h : NonnegData d) (hp : opBalancePayloadNonneg op) :
    NonnegData (applyOp d op) := by
  obtain ⟨hd, hg⟩ := h
  unfold applyOp
  cases op with
  | catAdd newId p =>
    simp only [runOp]
    cases hE : api_add_category newId p d with
    | error e => exact ⟨hd, hg⟩
    | ok d' =>
      simp only [api_add_category] at hE
      repeat' split at hE
      all_goals first
        | exact Except.noConfusion hE
        | (simp only [Except.ok.injEq] at hE
           subst hE
           exact ⟨hd, hg⟩)
  | catUpdate cid p =>
    simp only [runOp]
    cases hE : api_update_category cid p d with
    | error e => exact ⟨hd, hg⟩
    | ok d' =>
      simp only [api_update_category] at hE
      repeat' split at hE
      all_goals first
        | exact Except.noConfusion hE
        | (simp only [andThen, Except.ok.injEq] at hE
           subst hE
           exact ⟨hd, hg⟩)
  | catDelete cid =>
    simp only [runOp]
    cases hE : api_delete_category cid d with
    | error e => exact ⟨hd, hg⟩
    | ok d' =>
      simp only [api_delete_category] at hE
      repeat' split at hE
      all_goals first
        | exact Except.noConfusion hE
        | (simp only [Except.ok.injEq] at hE
           subst hE
           exact ⟨hd, hg⟩)
  | debtAdd newId newCatId p =>
    simp only [runOp]
    cases hE : api_add_debt newId newCatId p d with
    | error e => exact ⟨hd, hg⟩
    | ok d' =>
      simp only [api_add_debt] at hE
      split at hE
      · simp at hE
      · simp only [Except.ok.injEq] at hE
        subst hE
        refine ⟨?_, ?_⟩
        · intro x hx
          rw [ensure_debt_debts] at hx
          rcases List.mem_append.mp hx with h1 | h2
          · exact hd x h1
          · rw [List.mem_singleton.mp h2, ensure_debt_balance]
            exact hp
        · intro g hgx
          rw [ensure_debt_goals] at hgx
          exact hg g hgx
  | debtUpdate did f p =>
    simp only [runOp]
    cases hE : api_update_debt did f p d with
    | error e => exact ⟨hd, hg⟩
    | ok d' =>
      simp only [api_update_debt] at hE
      cases hF : d.debts.find? (fun x => x.id == did) with
      | none => rw [hF] at hE; exact Except.noConfusion hE
      | some d0 =>
        rw [hF] at hE
        dsimp only at hE
        have hb0 : 0 ≤ d0.balance := hd d0 (List.mem_of_find?_eq_some hF)
        obtain ⟨d1, hs1, hE⟩ := andThen_ok hE
        have hb1 : d1.balance = d0.balance := by
          cases hN : p.name <;> simp only [hN] at hs1
          · simp only [Except.ok.injEq] at hs1
            subst hs1
            rfl
          · repeat' split at hs1
            all_goals first
              | exact Except.noConfusion hs1
              | (simp only [Except.ok.injEq] at hs1
                 subst hs1
                 rfl)
        simp only [Except.ok.injEq] at hE
        subst hE
        refine ⟨?_, ?_⟩
        · intro x hx
          rw [ensure_debt_debts] at hx
          rcases mem_updateFirst _ _ _ hx with h1 | ⟨y, hy, hxy⟩
          · exact hd x h1
          · subst hxy
            rw [ensure_debt_balance]
            cases hpb : p.balance <;> cases hpk : p.kind <;>
              simp only [hpb, hpk] <;>
              first
                | split
                | skip
            all_goals first
              | (rw [hb1]; exact hb0)
              | exact hp _ hpb
        · intro g hgx
          rw [ensure_debt_goals] at hgx
          exact hg g hgx
  | debtDelete did =>
    simp only [runOp]
    cases hE : api_delete_debt did d with
    | error e => exact ⟨hd, hg⟩
    | ok d' =>
      simp only [api_delete_debt] at hE
      split at hE
      · simp at hE
      · simp only [Except.ok.injEq] at hE
        subst hE
        refine ⟨?_, ?_⟩
        · intro x hx
          rw [delete_linked_debts] at hx
          exact hd x (List.mem_of_mem_filter hx)
        · intro g hgx
          rw [delete_linked_goals] at hgx
          exact hg g hgx
  | goalDelete gid =>
    simp only [runOp]
    cases hE : api_delete_goal gid d with
    | error e => exact ⟨hd, hg⟩
    | ok d' =>
      simp only [api_delete_goal] at hE
      split at hE
      · exact Except.noConfusion hE
      · simp only [Except.ok.injEq] at hE
        subst hE
        refine ⟨?_, ?_⟩
        · intro x hx
          rw [delete_linked_debts] at hx
          exact hd x hx
        · intro g hgx
          rw [delete_linked_goals] at hgx
          exact hg g (List.mem_of_mem_filter hgx)
  | goalAdd newId newCatId today p =>
    simp only [runOp]
    cases hE : api_add_goal newId newCatId today p d with
    | error e => exact ⟨hd, hg⟩
    | ok d' =>
      simp only [api_add_goal] at hE
      repeat' split at hE
      all_goals first
        | exact Except.noConfusion hE
        | (simp only [Except.ok.injEq] at hE
           subst hE
           refine ⟨?_, ?_⟩
           · intro x hx
             rw [ensure_goal_debts] at hx
             exact hd x hx
           · intro g hgx
             rw [ensure_goal_goals] at hgx
             rcases List.mem_append.mp hgx with h1 | h2
             · exact hg g h1
             · rw [List.mem_singleton.mp h2, ensure_goal_current])
  | goalUpdate gid f today p =>
    simp only [runOp]
    cases hE : api_update_goal gid f today p d with
    | error e => exact ⟨hd, hg⟩
    | ok d' =>
      simp only [api_update_goal] at hE
      cases hF : d.goals.find? (fun x => x.id == gid) with
      | none => rw [hF] at hE; exact Except.noConfusion hE
      | some g0 =>
        rw [hF] at hE
        dsimp only at hE
        have hc0 : 0 ≤ g0.current := hg g0 (List.mem_of_find?_eq_some hF)
        obtain ⟨g1, hs1, hE⟩ := andThen_ok hE
        have hc1 : g1.current = g0.current := by
          cases hN : p.name <;> simp only [hN] at hs1
          · simp only [Except.ok.injEq] at hs1
            subst hs1
            rfl
          · repeat' split at hs1
            all_goals first
              | exact Except.noConfusion hs1
              | (simp only [Except.ok.injEq] at hs1
                 subst hs1
                 rfl)
        obtain ⟨g3, hs2, hE⟩ := andThen_ok hE
        have hc3 : g3.current = g1.current := by
          cases hpd : p.deadline <;> simp only [hpd] at hs2
          · simp only [Except.ok.injEq] at hs2
            subst hs2
            cases hpt : p.target <;> simp only [hpt]
          · repeat' split at hs2
            all_goals first
              | exact Except.noConfusion hs2
              | (simp only [Except.ok.injEq] at hs2
                 subst hs2
                 cases hpt : p.target <;> simp only [hpt])
        simp only [Except.ok.injEq] at hE
        subst hE
        refine ⟨?_, ?_⟩
        · intro x hx
          rw [ensure_goal_debts] at hx
          exact hd x hx
        · intro g hgx
          rw [ensure_goal_goals] at hgx
          rcases mem_updateFirst _ _ _ hgx with h1 | ⟨y, hy, hxy⟩
          · exact hg g h1
          · subst hxy
            rw [ensure_goal_current, hc3, hc1]
            exact hc0
  | txnAdd newId today p =>
    simp only [runOp]
    cases hE : api_add_txn newId today p d with
    | error e => exact ⟨hd, hg⟩
    | ok d' =>
      simp only [api_add_txn] at hE
      split at hE
      · simp at hE
      · simp only [Except.ok.injEq] at hE
        subst hE
        exact ⟨adjDebts_nonneg _ _ _ _ hd, adjGoals_nonneg _ _ _ _ hg⟩
  | txnUpdate tid p =>
    simp only [runOp]
    cases hE : api_update_txn tid p d with
    | error e => exact ⟨hd, hg⟩
    | ok d' =>
      simp only [api_update_txn] at hE
      repeat' split at hE
      all_goals first
        | exact Except.noConfusion hE
        | (simp only [Except.ok.injEq] at hE
           subst hE
           first
             | exact ⟨adjDebts_nonneg _ _ _ _ (adjDebts_nonneg _ _ _ _ hd),
                      adjGoals_nonneg _ _ _ _ (adjGoals_nonneg _ _ _ _ hg)⟩
             | exact ⟨adjDebts_nonneg _ _ _ _ hd, adjGoals_nonneg _ _ _ _ hg⟩
             | exact ⟨hd, hg⟩)
  | txnDelete tid =>
    simp only [runOp]
    cases hE : api_delete_txn tid d with
    | error e => exact ⟨hd, hg⟩
    | ok d' =>
      simp only [api_delete_txn] at hE
      split at hE
      · simp at hE
      · simp only [Except.ok.injEq] at hE
        subst hE
        refine ⟨adjDebts_nonneg _ _ _ _ hd, ?_⟩
        intro g hgx
        exact adjGoals_nonneg _ _ _ _ hg g hgx
  | openBalance v =>
    simp only [runOp, api_update_open_balance]
    exact ⟨hd, hg⟩
  | reset a b c =>
    simp only [runOp, api_reset_data, DEFAULT_DATA]
    exact ⟨by simp, by simp⟩

/-- Witness for the amended non-negativity theorem at a concrete input. -/
theorem nonneg_preserved_amended_witness :
    NonnegData (applyOp (Dataset.mk [] [] [] [] 0)
      (Op.debtAdd (lit "d1") (lit "c1") (DebtPayload.mk (some (lit "Loan")) none (some 50)))) :=
  nonneg_preserved_amended _ _ ⟨by simp, by simp⟩ (by norm_num [opBalancePayloadNonneg])

-- ---------------------- C5 ----------------------

/-- C5: deleting a category fails with `LinkedEntity` whenever some Debt
or Goal currently carries it as `linked_category_id`; otherwise an
unknown id yields `NotFound`; otherwise the record at the first index
holding that id is physically removed when no live transaction
references the category, and is soft-deleted in place (flagged
`deleted := true`, hence retained) when at least one does — the
reference count being recomputed from the live transaction list. -/
theorem delete_category_spec (cid : List Char) (d : Dataset) :
    (((∃ db ∈ d.debts, db.linked_category_id = some cid) ∨
      (∃ g ∈ d.goals, g.linked_category_id = some cid)) →
       api_delete_category cid d = .error .linkedEntity) ∧
    (¬ ((∃ db ∈ d.debts, db.linked_category_id = some cid) ∨
        (∃ g ∈ d.goals, g.linked_category_id = some cid)) →
      (d.categories.findIdx? (fun c => c.id == cid) = none →
        api_delete_category cid d = .error .notFound) ∧
      (∀ i, d.categories.findIdx? (fun c => c.id == cid) = some i →
        ((∀ t ∈ d.transactions, t.category_id ≠ some cid) →
          api_delete_category cid d = .ok { d with categories := d.categories.eraseIdx i }) ∧
        ((∃ t ∈ d.transactions, t.category_id = some cid) →
          api_delete_category cid d =
            .ok { d with categories :=
                    modAt d.categories i (fun c => { c with deleted := true }) }))) := by
  have hlink : (d.debts.any (fun x => x.linked_category_id == some cid) ||
      d.goals.any (fun x => x.linked_category_id == some cid)) = true ↔
      ((∃ db ∈ d.debts, db.linked_category_id = some cid) ∨
       (∃ g ∈ d.goals, g.linked_category_id = some cid)) := by
    simp [List.any_eq_true]
  constructor
  · intro h
    unfold api_delete_category
    rw [if_pos (hlink.mpr h)]
  · intro h
    unfold api_delete_category
    rw [if_neg (fun hb => h (hlink.mp hb))]
    constructor
    · intro hF
      rw [hF]
    · intro i hF
      rw [hF]
      dsimp only
      constructor
      · intro hno
        have hz : (d.transactions.filter (fun t => t.category_id == some cid)).length = 0 := by
          rw [List.length_eq_zero, List.filter_eq_nil_iff]
          intro t ht
          simp [hno t ht]
        rw [if_pos hz]
      · rintro ⟨t, ht, hc⟩
        have hz : ¬ (d.transactions.filter (fun t => t.category_id == some cid)).length = 0 := by
          rw [List.length_eq_zero, List.filter_eq_nil_iff]
          push_neg
          exact ⟨t, ht, by simp [hc]⟩
        rw [if_neg hz]

/-- Witness for the delete-category characterisation at concrete inputs. -/
theorem delete_category_spec_witness :
    api_delete_category (lit "c1")
        (Dataset.mk [Category.mk (lit "c1") (lit "Food") (lit "expense") false] [] [] [] 0) =
      .ok (Dataset.mk [] [] [] [] 0) := by
  have h := (delete_category_spec (lit "c1")
      (Dataset.mk [Category.mk (lit "c1") (lit "Food") (lit "expense") false] [] [] [] 0)).2
      (by simp) |>.2 0 (by decide) |>.1 (by simp)
  exact h

-- ---------------------- C2 ----------------------

/-- C2: updating a transaction looks up the prior record (else
`NotFound`); validates that the merged category resolves (else
`InvalidCategory`, and nothing is persisted); on success it subtracts
the old effect — computed from the stored old category, amount and
flags — from the Debt and Goal linked to the old category, adds the new
effect — computed from the request fields merged over the prior values,
absent fields (booleans included) keeping their stored value — to the
Debt and Goal linked to the merged category, clamps both writes at 0,
and persists the merged record (with `type` restamped from the new
category). -/
theorem update_txn_spec (tid : List Char) (p : TxnPayload) (d : Dataset) :
    (d.transactions.find? (fun t => t.id == tid) = none →
      api_update_txn tid p d = .error .notFound) ∧
    (∀ old, d.transactions.find? (fun t => t.id == tid) = some old →
      (d.categories.find? (fun c => some c.id == mergeCat old p) = none →
        api_update_txn tid p d = .error .invalidCategory) ∧
      (∀ cat, d.categories.find? (fun c => some c.id == mergeCat old p) = some cat →
        api_update_txn tid p d =
          (let d1 := if truthy old.category_id then
              { d with debts := adjDebts old.category_id old.amount old.debt_claim (-1) d.debts,
                       goals := adjGoals old.category_id old.amount old.goal_withdrawal (-1) d.goals }
            else d
           let d2 := if truthy (mergeCat old p) then
              let db2 := adjDebts (mergeCat old p) (p.amount.getD old.amount) (p.debt_claim.getD old.debt_claim) 1 d1.debts
              let gl2 := adjGoals (mergeCat old p) (p.amount.getD old.amount) (p.goal_withdrawal.getD old.goal_withdrawal) 1 d1.goals
              { d1 with debts := db2, goals := gl2 }
            else d1
           let merged : Txn := Txn.mk old.id (p.date.getD old.date) (mergeCat old p) (p.amount.getD old.amount) (p.note.getD old.note) cat.type (p.use_open_balance.getD old.use_open_balance) (p.debt_claim.getD old.debt_claim) (p.goal_withdrawal.getD old.goal_withdrawal)
           let txns := updateFirst (fun t => t.id == tid) (fun _ => merged) d2.transactions
           .ok { d2 with transactions := txns }))) := by
  refine ⟨?_, ?_⟩
  · intro hF
    unfold api_update_txn
    rw [hF]
  · intro old hF
    refine ⟨?_, ?_⟩
    · intro hC
      unfold api_update_txn
      rw [hF]
      dsimp only
      rw [hC]
    · intro cat hC
      unfold api_update_txn
      rw [hF]
      dsimp only
      rw [hC]

/-- Witness for the transaction-update characterisation at a concrete
input (editing the amount of the only transaction). -/
theorem update_txn_spec_witness :
    api_update_txn (lit "t1")
        (TxnPayload.mk none none (some 80) none none none none)
        (Dataset.mk [Category.mk (lit "c1") (lit "Trip - Goal") (lit "saving") false]
          [Txn.mk (lit "t1") (lit "2025-01-02") (some (lit "c1")) 50 [] (lit "saving")
            false false false]
          []
          [Goal.mk (lit "g1") (lit "Trip") 500 50 (lit "2030-01-01") (lit "2025-01-01")
            (some (lit "c1"))]
          0) =
      (let old : Txn := Txn.mk (lit "t1") (lit "2025-01-02") (some (lit "c1")) 50 [] (lit "saving")
            false false false
       let p : TxnPayload := TxnPayload.mk none none (some 80) none none none none
       let d : Dataset := Dataset.mk [Category.mk (lit "c1") (lit "Trip - Goal") (lit "saving") false]
          [old] []
          [Goal.mk (lit "g1") (lit "Trip") 500 50 (lit "2030-01-01") (lit "2025-01-01")
            (some (lit "c1"))]
          0
       let d1 := if truthy old.category_id then
          { d with debts := adjDebts old.category_id old.amount old.debt_claim (-1) d.debts,
                   goals := adjGoals old.category_id old.amount old.goal_withdrawal (-1) d.goals }
        else d
       let d2 := if truthy (mergeCat old p) then
          let db2 := adjDebts (mergeCat old p) (p.amount.getD old.amount) (p.debt_claim.getD old.debt_claim) 1 d1.debts
          let gl2 := adjGoals (mergeCat old p) (p.amount.getD old.amount) (p.goal_withdrawal.getD old.goal_withdrawal) 1 d1.goals
          { d1 with debts := db2, goals := gl2 }
        else d1
       let merged : Txn := Txn.mk old.id (p.date.getD old.date) (mergeCat old p) (p.amount.getD old.amount) (p.note.getD old.note) ((Category.mk (lit "c1") (lit "Trip - Goal") (lit "saving") false).type) (p.use_open_balance.getD old.use_open_balance) (p.debt_claim.getD old.debt_claim) (p.goal_withdrawal.getD old.goal_withdrawal)
       let txns := updateFirst (fun t => t.id == lit "t1") (fun _ => merged) d2.transactions
       .ok { d2 with transactions := txns }) := by
  exact (update_txn_spec (lit "t1")
      (TxnPayload.mk none none (some 80) none none none none)
      (Dataset.mk [Category.mk (lit "c1") (lit "Trip - Goal") (lit "saving") false]
        [Txn.mk (lit "t1") (lit "2025-01-02") (some (lit "c1")) 50 [] (lit "saving")
          false false false]
        []
        [Goal.mk (lit "g1") (lit "Trip") 500 50 (lit "2030-01-01") (lit "2025-01-01")
          (some (lit "c1"))]
        0)).2
    (Txn.mk (lit "t1") (lit "2025-01-02") (some (lit "c1")) 50 [] (lit "saving") false false false)
    (by decide) |>.2
    (Category.mk (lit "c1") (lit "Trip - Goal") (lit "saving") false)
    (by decide)

-- ---------------------- C9 ----------------------

theorem find?_append_right {p : α → Bool} {l1 l2 : List α}
    (h : ∀ x ∈ l1, p x = false) : (l1 ++ l2).find? p = l2.find? p := by
  induction l1 with
  | nil => rfl
  | cons x xs ih =>
    have hx := h x (List.mem_cons_self x xs)
    simp only [List.cons_append, List.find?, hx]
    exact ih (fun y hy => h y (List.mem_cons_of_mem x hy))

/-- Subtracting the effect that was just added restores the goal list,
as long as neither write was clamped. -/
theorem adjGoals_roundtrip (tc : Option (List Char)) (amt : ℚ) (gw : Bool) (l : List Goal)
    (h : ∀ g, l.find? (fun x => x.linked_category_id == tc) = some g →
        0 ≤ g.current ∧ 0 ≤ g.current + goal_effect amt gw) :
    adjGoals tc amt gw (-1) (adjGoals tc amt gw 1 l) = l := by
  unfold adjGoals
  rw [updateFirst_updateFirst (fun g : Goal => g.linked_category_id == tc)
    (fun g => { g with current := max 0 (g.current + 1 * goal_effect amt gw) })
    (fun g => { g with current := max 0 (g.current + -1 * goal_effect amt gw) })
    l (fun a => rfl)]
  cases hF : l.find? (fun x => x.linked_category_id == tc) with
  | none => exact updateFirst_of_find?_none _ _ _ hF
  | some g0 =>
    refine updateFirst_of_fix _ _ _ _ hF ?_
    obtain ⟨h0, h1⟩ := h g0 hF
    have e1 : max 0 (g0.current + 1 * goal_effect amt gw) = g0.current + goal_effect amt gw := by
      rw [one_mul]
      exact max_eq_right h1
    dsimp only
    rw [e1]
    have e2 : g0.current + goal_effect amt gw + -1 * goal_effect amt gw = g0.current := by ring
    rw [e2, max_eq_right h0]

/-- C9: creating a transaction and then deleting it (with no operation
in between) restores `Goal.current` — in fact the whole goal list — to
its pre-create value, provided the `max(0, ...)` clamp was not hit by
either write on the goal linked to the transaction's category, where the
effect is `-amount` for a withdrawal and `+amount` otherwise. -/
theorem goal_roundtrip (newId today : List Char) (p : TxnPayload) (d d1 : Dataset)
    (hfresh : ∀ t ∈ d.transactions, t.id ≠ newId)
    (hclamp : ∀ g, d.goals.find? (fun x => x.linked_category_id == p.category_id) = some g →
        0 ≤ g.current ∧ 0 ≤ g.current + goal_effect (p.amount.getD 0) (p.goal_withdrawal.getD false))
    (hadd : api_add_txn newId today p d = .ok d1) :
    (api_delete_txn newId d1).map Dataset.goals = .ok d.goals := by
  unfold api_add_txn at hadd
  dsimp only at hadd
  cases hC : d.categories.find? (fun c => some c.id == p.category_id) with
  | none => rw [hC] at hadd; exact Except.noConfusion hadd
  | some c =>
    rw [hC] at hadd
    simp only [Except.ok.injEq] at hadd
    subst hadd
    unfold api_delete_txn
    rw [find?_append_right (fun t ht => by simpa using hfresh t ht)]
    simp only [List.find?, beq_self_eq_true, Except.map]
    rw [adjGoals_roundtrip _ _ _ _ hclamp]

/-- Witness for the goal round-trip: a 30-unit deposit onto a goal at
50 is created (current becomes 80) and deleted again (current back to
50). -/
theorem goal_roundtrip_witness :
    (api_delete_txn (lit "t1")
        (Dataset.mk [Category.mk (lit "c1") (lit "Trip - Goal") (lit "saving") false]
          [Txn.mk (lit "t1") (lit "2025-01-02") (some (lit "c1")) 30 [] (lit "saving")
            false false false]
          []
          [Goal.mk (lit "g1") (lit "Trip") 500 80 (lit "2030-01-01") (lit "2025-01-01")
            (some (lit "c1"))]
          0)).map Dataset.goals =
      .ok [Goal.mk (lit "g1") (lit "Trip") 500 50 (lit "2030-01-01") (lit "2025-01-01")
            (some (lit "c1"))] := by
  refine goal_roundtrip (lit "t1") (lit "2025-01-02")
      (TxnPayload.mk none (some (lit "c1")) (some 30) none none none none)
      (Dataset.mk [Category.mk (lit "c1") (lit "Trip - Goal") (lit "saving") false]
        []
        []
        [Goal.mk (lit "g1") (lit "Trip") 500 50 (lit "2030-01-01") (lit "2025-01-01")
          (some (lit "c1"))]
        0)
      _ (by simp) ?_ ?_
  · intro g hg
    have he : (List.find? (fun x => x.linked_category_id == some (lit "c1"))
        [Goal.mk (lit "g1") (lit "Trip") 500 50 (lit "2030-01-01") (lit "2025-01-01")
          (some (lit "c1"))]) =
        some (Goal.mk (lit "g1") (lit "Trip") 500 50 (lit "2030-01-01") (lit "2025-01-01")
          (some (lit "c1"))) := by decide
    rw [he] at hg
    obtain rfl : Goal.mk (lit "g1") (lit "Trip") 500 50 (lit "2030-01-01") (lit "2025-01-01")
        (some (lit "c1")) = g := by
      injection hg
    constructor <;> norm_num [goal_effect]
  · norm_num [api_add_txn, adjDebts, adjGoals, updateFirst, goal_effect, debt_effect,
      lit, pyOrOpt, pyOrStr, List.find?, Option.getD]

-- ---------------------- C10 ----------------------

theorem map_updateFirst_of_find? {x : α} (p : α → Bool) (f : α → α) (m : α → β) (l : List α)
    (h : l.find? p = some x) (hm : m (f x) = m x) :
    (updateFirst p f l).map m = l.map m := by
  induction l with
  | nil => rfl
  | cons y ys ih =>
    cases hp : p y with
    | true =>
      simp only [List.find?, hp] at h
      injection h with h
      subst h
      simp [updateFirst, hp, hm]
    | false =>
      simp only [List.find?, hp] at h
      simp [updateFirst, hp, ih h]

/-- C10: `Goal.current` is never taken from a client payload: creating a
goal ignores any `current` field and always starts the stored goal at 0;
updating a goal ignores any `current` field and leaves every stored
progress value unchanged; and the category, debt and open-balance
endpoints never touch the goals list at all, so only the transaction
endpoints ever move `Goal.current`. -/
theorem goal_current_server_controlled (d : Dataset) :
    (∀ a b today p v,
      api_add_goal a b today p d = api_add_goal a b today { p with current := v } d) ∧
    (∀ a b today p d', api_add_goal a b today p d = .ok d' →
      d'.goals.map Goal.current = d.goals.map Goal.current ++ [0]) ∧
    (∀ gid f today p v,
      api_update_goal gid f today p d = api_update_goal gid f today { p with current := v } d) ∧
    (∀ gid f today p d', api_update_goal gid f today p d = .ok d' →
      d'.goals.map Goal.current = d.goals.map Goal.current) ∧
    (∀ op, goalFrameOp op = true → (applyOp d op).goals = d.goals) := by
  refine ⟨?_, ?_, ?_, ?_, ?_⟩
  · intro a b today p v
    cases p
    rfl
  · intro a b today p d' hE
    simp only [api_add_goal] at hE
    repeat' split at hE
    all_goals first
      | exact Except.noConfusion hE
      | (simp only [Except.ok.injEq] at hE
         subst hE
         simp [List.map_append, ensure_goal_goals, ensure_goal_current])
  · intro gid f today p v
    cases p
    rfl
  · intro gid f today p d' hE
    simp only [api_update_goal] at hE
    cases hF : d.goals.find? (fun x => x.id == gid) with
    | none => rw [hF] at hE; exact Except.noConfusion hE
    | some g0 =>
      rw [hF] at hE
      dsimp only at hE
      obtain ⟨g1, hs1, hE⟩ := andThen_ok hE
      have hc1 : g1.current = g0.current := by
        cases hN : p.name <;> simp only [hN] at hs1
        · simp only [Except.ok.injEq] at hs1
          subst hs1
          rfl
        · repeat' split at hs1
          all_goals first
            | exact Except.noConfusion hs1
            | (simp only [Except.ok.injEq] at hs1
               subst hs1
               rfl)
      obtain ⟨g3, hs2, hE⟩ := andThen_ok hE
      have hc3 : g3.current = g1.current := by
        cases hpd : p.deadline <;> simp only [hpd] at hs2
        · simp only [Except.ok.injEq] at hs2
          subst hs2
          cases hpt : p.target <;> simp only [hpt]
        · repeat' split at hs2
          all_goals first
            | exact Except.noConfusion hs2
            | (simp only [Except.ok.injEq] at hs2
               subst hs2
               cases hpt : p.target <;> simp only [hpt])
      simp only [Except.ok.injEq] at hE
      subst hE
      dsimp only
      rw [ensure_goal_goals]
      have hup : (ensure_linked_category_for_goal f d g3).2.1.current = g0.current := by
        rw [ensure_goal_current, hc3, hc1]
      -- the goal found by id is the first match replaced by updateFirst
      exact map_updateFirst_of_find? _ _ _ _ hF hup
  · intro op hop
    cases op with
    | catAdd newId p =>
      unfold applyOp
      simp only [runOp]
      cases hE : api_add_category newId p d with
      | error e => rfl
      | ok d' =>
        simp only [api_add_category] at hE
        repeat' split at hE
        all_goals first
          | exact Except.noConfusion hE
          | (simp only [Except.ok.injEq] at hE
             subst hE
             rfl)
    | catUpdate cid p =>
      unfold applyOp
      simp only [runOp]
      cases hE : api_update_category cid p d with
      | error e => rfl
      | ok d' =>
        simp only [api_update_category] at hE
        repeat' split at hE
        all_goals first
          | exact Except.noConfusion hE
          | (simp only [andThen, Except.ok.injEq] at hE
             subst hE
             rfl)
    | catDelete cid =>
      unfold applyOp
      simp only [runOp]
      cases hE : api_delete_category cid d with
      | error e => rfl
      | ok d' =>
        simp only [api_delete_category] at hE
        repeat' split at hE
        all_goals first
          | exact Except.noConfusion hE
          | (simp only [Except.ok.injEq] at hE
             subst hE
             rfl)
    | debtAdd a b p =>
      unfold applyOp
      simp only [runOp]
      cases hE : api_add_debt a b p d with
      | error e => rfl
      | ok d' =>
        simp only [api_add_debt] at hE
        repeat' split at hE
        all_goals first
          | exact Except.noConfusion hE
          | (simp only [Except.ok.injEq] at hE
             subst hE
             exact ensure_debt_goals _ _ _)
    | debtUpdate a b p =>
      unfold applyOp
      simp only [runOp]
      cases hE : api_update_debt a b p d with
      | error e => rfl
      | ok d' =>
        simp only [api_update_debt] at hE
        repeat' split at hE
        all_goals first
          | exact Except.noConfusion hE
          | (simp only [andThen, Except.ok.injEq] at hE
             first
               | exact Except.noConfusion hE
               | (subst hE
                  exact ensure_debt_goals _ _ _))
    | debtDelete did =>
      unfold applyOp
      simp only [runOp]
      cases hE : api_delete_debt did d with
      | error e => rfl
      | ok d' =>
        simp only [api_delete_debt] at hE
        split at hE
        · exact Except.noConfusion hE
        · simp only [Except.ok.injEq] at hE
          subst hE
          exact delete_linked_goals _ _
    | openBalance v =>
      unfold applyOp
      simp only [runOp, api_update_open_balance]
    | goalAdd a b c p => simp [goalFrameOp] at hop
    | goalUpdate a b c p => simp [goalFrameOp] at hop
    | goalDelete g => simp [goalFrameOp] at hop
    | txnAdd a b p => simp [goalFrameOp] at hop
    | txnUpdate t p => simp [goalFrameOp] at hop
    | txnDelete t => simp [goalFrameOp] at hop
    | reset a b c => simp [goalFrameOp] at hop

/-- Witness for the server-controlled `Goal.current` theorem: its
create-ignores-payload part at a concrete input. -/
theorem goal_current_server_controlled_witness :
    (api_add_goal (lit "g1") (lit "c1") (lit "2025-01-01")
        (GoalPayload.mk (some (lit "Trip")) (some 500) (some 999) (some (lit "2030-01-01")))
        (Dataset.mk [] [] [] [] 0)).map (fun d' => d'.goals.map Goal.current) =
      .ok [0] := by
  have h := (goal_current_server_controlled (Dataset.mk [] [] [] [] 0)).2.1 (lit "g1") (lit "c1")
      (lit "2025-01-01")
      (GoalPayload.mk (some (lit "Trip")) (some 500) (some 999) (some (lit "2030-01-01")))
  have hE : api_add_goal (lit "g1") (lit "c1") (lit "2025-01-01")
      (GoalPayload.mk (some (lit "Trip")) (some 500) (some 999) (some (lit "2030-01-01")))
      (Dataset.mk [] [] [] [] 0) =
      .ok (Dataset.mk [Category.mk (lit "c1") (lit "Trip - Goal") (lit "saving") false] [] []
        [Goal.mk (lit "g1") (lit "Trip") 500 0 (lit "2030-01-01") (lit "2025-01-01")
          (some (lit "c1"))] 0) := by rfl
  have h2 := h _ hE
  rw [hE]
  simp only [Except.map]
  rw [h2]
  rfl

-- ---------------------- C7 ----------------------

theorem take_map_updateFirst (p : α → Bool) (f : α → α) (m : α → β) (l : List α)
    (hm : ∀ a, m (f a) = m a) :
    ((updateFirst p f l).take l.length).map m = l.map m := by
  rw [show l.length = (updateFirst p f l).length from (length_updateFirst p f l).symm,
    List.take_length, map_updateFirst _ _ _ _ hm]

theorem take_map_updateFirst2 (p : α → Bool) (f1 f2 : α → α) (m : α → β) (l : List α)
    (h1 : ∀ a, m (f1 a) = m a) (h2 : ∀ a, m (f2 a) = m a) :
    ((updateFirst p f2 (updateFirst p f1 l)).take l.length).map m = l.map m := by
  rw [show l.length = (updateFirst p f1 l).length from (length_updateFirst p f1 l).symm,
    take_map_updateFirst _ _ _ _ h2, map_updateFirst _ _ _ _ h1]

/-- C7: the linked-category binder never changes the id or the
`deleted` flag of any pre-existing category (in particular it never
revives a soft-deleted one and never links an owner to an existing
soft-deleted category); whenever the owner's `linked_category_id` is
unset or fails to resolve, a brand-new active category record with the
fresh uuid is appended and the owner is pointed at it — so transactions
referencing an old deleted linked category keep resolving to that old
record even if a Debt or Goal of the same name is created later.
Stated for the debt binder and the goal binder. -/
theorem binder_never_revives (fd : List Char) (da : Dataset) (db : Debt)
    (fg : List Char) (ga : Dataset) (g : Goal) :
    (((ensure_linked_category_for_debt fd da db).1.categories.take da.categories.length).map
        (fun c => (c.id, c.deleted)) = da.categories.map (fun c => (c.id, c.deleted))) ∧
    (linkedResolves da db.linked_category_id = false →
      ∃ nm tp, (ensure_linked_category_for_debt fd da db).1.categories =
          da.categories ++ [Category.mk fd nm tp false] ∧
        (ensure_linked_category_for_debt fd da db).2.1.linked_category_id = some fd ∧
        (ensure_linked_category_for_debt fd da db).2.2 = fd) ∧
    (((ensure_linked_category_for_goal fg ga g).1.categories.take ga.categories.length).map
        (fun c => (c.id, c.deleted)) = ga.categories.map (fun c => (c.id, c.deleted))) ∧
    (linkedResolves ga g.linked_category_id = false →
      ∃ nm tp, (ensure_linked_category_for_goal fg ga g).1.categories =
          ga.categories ++ [Category.mk fg nm tp false] ∧
        (ensure_linked_category_for_goal fg ga g).2.1.linked_category_id = some fg ∧
        (ensure_linked_category_for_goal fg ga g).2.2 = fg) := by
  refine ⟨?_, ?_, ?_, ?_⟩
  · unfold ensure_linked_category_for_debt
    by_cases h : (truthy db.linked_category_id &&
        da.categories.any fun c => some c.id == db.linked_category_id) = true
    · simp only [h, if_true]
      exact take_map_updateFirst2 _ _ _ _ _ (fun a => rfl) (fun a => rfl)
    · rw [Bool.not_eq_true] at h
      simp only [h, Bool.false_eq_true, if_false]
      rw [List.take_left]
  · intro hnr
    unfold ensure_linked_category_for_debt
    simp only [linkedResolves] at hnr
    simp only [hnr, Bool.false_eq_true, if_false]
    exact ⟨_, _, rfl, trivial, trivial⟩
  · unfold ensure_linked_category_for_goal
    by_cases h : (truthy g.linked_category_id &&
        ga.categories.any fun c => some c.id == g.linked_category_id) = true
    · simp only [h, if_true]
      exact take_map_updateFirst2 _ _ _ _ _ (fun a => rfl) (fun a => rfl)
    · rw [Bool.not_eq_true] at h
      simp only [h, Bool.false_eq_true, if_false]
      rw [List.take_left]
  · intro hnr
    unfold ensure_linked_category_for_goal
    simp only [linkedResolves] at hnr
    simp only [hnr, Bool.false_eq_true, if_false]
    exact ⟨_, _, rfl, trivial, trivial⟩

/-- Witness for the binder theorem: a deleted category named exactly
like the would-be linked category is left untouched, and a fresh record
is appended. -/
theorem binder_never_revives_witness :
    (((ensure_linked_category_for_debt (lit "c2")
        (Dataset.mk [Category.mk (lit "c1") (lit "Car Loan - Debt") (lit "expense") true] [] [] [] 0)
        (Debt.mk (lit "d1") (lit "Car Loan") 100 (lit "payable") none)).1.categories.take 1).map
        (fun c => (c.id, c.deleted)) =
      [Category.mk (lit "c1") (lit "Car Loan - Debt") (lit "expense") true].map
        (fun c => (c.id, c.deleted))) ∧
    (∃ nm tp, (ensure_linked_category_for_debt (lit "c2")
        (Dataset.mk [Category.mk (lit "c1") (lit "Car Loan - Debt") (lit "expense") true] [] [] [] 0)
        (Debt.mk (lit "d1") (lit "Car Loan") 100 (lit "payable") none)).1.categories =
          [Category.mk (lit "c1") (lit "Car Loan - Debt") (lit "expense") true] ++
            [Category.mk (lit "c2") nm tp false] ∧
        (ensure_linked_category_for_debt (lit "c2")
          (Dataset.mk [Category.mk (lit "c1") (lit "Car Loan - Debt") (lit "expense") true] [] [] [] 0)
          (Debt.mk (lit "d1") (lit "Car Loan") 100 (lit "payable") none)).2.1.linked_category_id =
          some (lit "c2") ∧
        (ensure_linked_category_for_debt (lit "c2")
          (Dataset.mk [Category.mk (lit "c1") (lit "Car Loan - Debt") (lit "expense") true] [] [] [] 0)
          (Debt.mk (lit "d1") (lit "Car Loan") 100 (lit "payable") none)).2.2 = lit "c2") := by
  have h := binder_never_revives (lit "c2")
      (Dataset.mk [Category.mk (lit "c1") (lit "Car Loan - Debt") (lit "expense") true] [] [] [] 0)
      (Debt.mk (lit "d1") (lit "Car Loan") 100 (lit "payable") none)
      (lit "c2") (Dataset.mk [] [] [] [] 0)
      (Goal.mk (lit "g1") (lit "G") 0 0 [] [] none)
  exact ⟨h.1, h.2.1 (by decide)⟩

-- ---------------------- C6 ----------------------

/-- C6 counterexample: renaming a soft-deleted category to (a
case-variant of) its own current name skips the duplicate check
entirely, so the request succeeds even though the candidate name equals
another *active* category's name — contradicting the claimed
"fails if and only if" characterisation.  Here category `d1` (deleted)
and category `a1` (active) are both named "a"; renaming `d1` to "a"
succeeds. -/
theorem duplicate_name_counterexample :
    (∃ c ∈ (Dataset.mk
        [Category.mk (lit "d1") (lit "a") (lit "expense") true,
         Category.mk (lit "a1") (lit "a") (lit "expense") false] [] [] [] 0).categories,
      ¬c.deleted ∧ c.id ≠ lit "d1" ∧ normName c.name = normName (lit "a")) ∧
    api_update_category (lit "d1") (CategoryPayload.mk (some (lit "a")) none)
        (Dataset.mk
          [Category.mk (lit "d1") (lit "a") (lit "expense") true,
           Category.mk (lit "a1") (lit "a") (lit "expense") false] [] [] [] 0) =
      .ok (Dataset.mk
          [Category.mk (lit "d1") (lit "a") (lit "expense") true,
           Category.mk (lit "a1") (lit "a") (lit "expense") false] [] [] [] 0) := by
  constructor
  · decide
  · rfl

/-- C6 (amended): creating a category (with a nonempty trimmed name)
fails with `DuplicateName` iff the trimmed, case-folded candidate equals
some active category's trimmed, case-folded name, and otherwise appends
a fresh record, leaving soft-deleted namesakes untouched; renaming an
existing category fails with `DuplicateName` iff the candidate differs
case-insensitively from the category's own current name *and* matches
some other active category — renaming to one's own current name always
succeeds, even over an active namesake (see the counterexample); and a
successful update never changes any category's id or `deleted` flag, so
soft-deleted records are never revived. -/
theorem duplicate_name_spec (newId cid : List Char) (p : CategoryPayload) (d : Dataset) :
    (pyStrip (pyOrOpt p.name []) ≠ [] →
      (api_add_category newId p d = .error .duplicateName ↔
        ∃ c ∈ d.categories, c.deleted = false ∧ normName c.name = normName (pyOrOpt p.name [])) ∧
      (¬ (∃ c ∈ d.categories, c.deleted = false ∧ normName c.name = normName (pyOrOpt p.name [])) →
        api_add_category newId p d =
          .ok { d with categories := d.categories ++
            [Category.mk newId (pyStrip (pyOrOpt p.name []))
              (pyStrip (pyOrOpt p.type (lit "expense"))) false] })) ∧
    (∀ c0 nm, d.categories.find? (fun c => c.id == cid) = some c0 → p.name = some nm →
      pyStrip nm ≠ [] →
      (api_update_category cid p d = .error .duplicateName ↔
        (normName nm ≠ normName c0.name ∧
          ∃ c ∈ d.categories, c.id ≠ cid ∧ c.deleted = false ∧ normName c.name = normName nm))) ∧
    (∀ d', api_update_category cid p d = .ok d' →
      d'.categories.map (fun c => (c.id, c.deleted)) =
        d.categories.map (fun c => (c.id, c.deleted))) := by
  have hmemN : ∀ needle : List Char,
      (casefold (pyStrip needle) ∈
        (d.categories.filter (fun c => !c.deleted)).map (fun c => normName c.name)) ↔
      (∃ c ∈ d.categories, c.deleted = false ∧ normName c.name = normName needle) := by
    intro needle
    simp only [List.mem_map, List.mem_filter, Bool.not_eq_true', normName]
    tauto
  have hmemE : ∀ needle : List Char,
      (casefold (pyStrip needle) ∈
        (d.categories.filter (fun x => x.id != cid && !x.deleted)).map
          (fun x => normName x.name)) ↔
      (∃ c ∈ d.categories, c.id ≠ cid ∧ c.deleted = false ∧ normName c.name = normName needle) := by
    intro needle
    simp only [List.mem_map, List.mem_filter, Bool.and_eq_true, Bool.not_eq_true',
      bne_iff_ne, normName]
    tauto
  refine ⟨?_, ?_, ?_⟩
  · intro h1
    constructor
    · unfold api_add_category
      rw [if_neg h1]
      by_cases hm : casefold (pyStrip (pyOrOpt p.name [])) ∈
          (d.categories.filter (fun c => !c.deleted)).map (fun c => normName c.name)
      · rw [if_pos hm]
        exact ⟨fun _ => (hmemN _).mp hm, fun _ => rfl⟩
      · rw [if_neg hm]
        constructor
        · intro hcontra
          exact absurd hcontra (by simp)
        · intro hx
          exact absurd ((hmemN _).mpr hx) hm
    · intro hno
      unfold api_add_category
      rw [if_neg h1, if_neg (fun hm => hno ((hmemN _).mp hm))]
  · intro c0 nm hF hnm h2
    unfold api_update_category
    rw [hF]
    dsimp only
    rw [hnm]
    dsimp only
    rw [if_neg h2]
    by_cases hcond : casefold (pyStrip nm) ≠ normName c0.name ∧
        casefold (pyStrip nm) ∈
          (d.categories.filter (fun x => x.id != cid && !x.deleted)).map (fun x => normName x.name)
    · rw [if_pos hcond]
      simp only [andThen]
      constructor
      · intro _
        exact ⟨hcond.1, (hmemE _).mp hcond.2⟩
      · intro _
        trivial
    · rw [if_neg hcond]
      simp only [andThen]
      constructor
      · intro hcontra
        exact absurd hcontra (by simp)
      · rintro ⟨hne, hx⟩
        exact absurd ⟨hne, (hmemE _).mpr hx⟩ hcond
  · intro d' hE
    simp only [api_update_category] at hE
    cases hF : d.categories.find? (fun c => c.id == cid) with
    | none => rw [hF] at hE; exact Except.noConfusion hE
    | some c0 =>
      rw [hF] at hE
      dsimp only at hE
      obtain ⟨c1, hs1, hE⟩ := andThen_ok hE
      have hkey : c1.id = c0.id ∧ c1.deleted = c0.deleted := by
        cases hN : p.name <;> simp only [hN] at hs1
        · simp only [Except.ok.injEq] at hs1
          subst hs1
          exact ⟨rfl, rfl⟩
        · repeat' split at hs1
          all_goals first
            | exact Except.noConfusion hs1
            | (simp only [Except.ok.injEq] at hs1
               subst hs1
               exact ⟨rfl, rfl⟩)
      simp only [Except.ok.injEq] at hE
      subst hE
      dsimp only
      refine map_updateFirst_of_find? _ _ _ _ hF ?_
      cases hT : p.type <;> simp only [hT]
      · simp [hkey.1, hkey.2]
      · simp [hkey.1, hkey.2]

/-- Witness for the amended duplicate-name theorem: creating "a" while
an active "A" exists is a `DuplicateName` failure. -/
theorem duplicate_name_spec_witness :
    api_add_category (lit "c9") (CategoryPayload.mk (some (lit "a")) none)
        (Dataset.mk [Category.mk (lit "a1") (lit "A") (lit "expense") false] [] [] [] 0) =
      .error .duplicateName := by
  have h := (duplicate_name_spec (lit "c9") (lit "zz")
      (CategoryPayload.mk (some (lit "a")) none)
      (Dataset.mk [Category.mk (lit "a1") (lit "A") (lit "expense") false] [] [] [] 0)).1
      (by decide)
  exact h.1.mpr ⟨Category.mk (lit "a1") (lit "A") (lit "expense") false, by decide, by decide,
    by decide⟩

-- ---------------------- C8: decimal suffix machinery ----------------------

theorem digitsRev_eq_digits : ∀ fuel n, n ≤ fuel → digitsRev fuel n = Nat.digits 10 n := by
  intro fuel
  induction fuel with
  | zero =>
    intro n hn
    interval_cases n
    rw [Nat.digits_zero]
    rfl
  | succ fuel ih =>
    intro n hn
    cases n with
    | zero =>
      rw [Nat.digits_zero]
      rfl
    | succ m =>
      have hdiv : (m + 1) / 10 ≤ fuel := by
        have := Nat.div_lt_self (Nat.succ_pos m) (by norm_num : 1 < 10)
        omega
      rw [show digitsRev (fuel + 1) (m + 1) = (m + 1) % 10 :: digitsRev fuel ((m + 1) / 10) from rfl,
        ih _ hdiv, ← Nat.digits_def' (by norm_num : 1 < 10) (Nat.succ_pos m)]

theorem natRepr_eq (n : Nat) (h : 1 ≤ n) :
    natRepr n = ((Nat.digits 10 n).reverse).map digitChar10 := by
  unfold natRepr
  rw [if_neg (by omega), digitsRev_eq_digits n n le_rfl]

theorem digitChar10_inj {a b : Nat} (ha : a < 10) (hb : b < 10)
    (h : digitChar10 a = digitChar10 b) : a = b := by
  interval_cases a <;> interval_cases b <;> first | rfl | (exfalso; revert h; decide)

theorem map_digitChar10_inj : ∀ l1 l2 : List Nat, (∀ x ∈ l1, x < 10) → (∀ x ∈ l2, x < 10) →
    l1.map digitChar10 = l2.map digitChar10 → l1 = l2 := by
  intro l1
  induction l1 with
  | nil =>
    intro l2 _ _ h
    cases l2 with
    | nil => rfl
    | cons b bs => simp at h
  | cons a as ih =>
    intro l2 h1 h2 h
    cases l2 with
    | nil => simp at h
    | cons b bs =>
      simp only [List.map_cons, List.cons.injEq] at h
      have ha := h1 a (List.mem_cons_self a as)
      have hb := h2 b (List.mem_cons_self b bs)
      rw [digitChar10_inj ha hb h.1,
        ih bs (fun x hx => h1 x (List.mem_cons_of_mem a hx))
          (fun x hx => h2 x (List.mem_cons_of_mem b hx)) h.2]

theorem natRepr_inj {m n : Nat} (hm : 1 ≤ m) (hn : 1 ≤ n)
    (h : natRepr m = natRepr n) : m = n := by
  rw [natRepr_eq m hm, natRepr_eq n hn] at h
  have h2 : (Nat.digits 10 m).reverse = (Nat.digits 10 n).reverse :=
    map_digitChar10_inj _ _
      (fun x hx => Nat.digits_lt_base (by norm_num) (List.mem_reverse.mp hx))
      (fun x hx => Nat.digits_lt_base (by norm_num) (List.mem_reverse.mp hx)) h
  have h3 : Nat.digits 10 m = Nat.digits 10 n := by
    have := congrArg List.reverse h2
    simpa using this
  have := congrArg (Nat.ofDigits 10) h3
  rwa [Nat.ofDigits_digits, Nat.ofDigits_digits] at this

theorem foldChar_digitChar10 {d : Nat} (hd : d < 10) :
    foldChar (digitChar10 d) = digitChar10 d := by
  interval_cases d <;> decide

theorem casefold_natRepr (n : Nat) : casefold (natRepr n) = natRepr n := by
  unfold natRepr casefold
  split
  · decide
  · rw [List.map_map]
    refine List.map_congr_left ?_
    intro d hd
    have hd10 : d < 10 := by
      rw [digitsRev_eq_digits n n le_rfl] at hd
      exact Nat.digits_lt_base (by norm_num) (List.mem_reverse.mp hd)
    exact foldChar_digitChar10 hd10

theorem casefold_candName (base : List Char) (i : Nat) :
    casefold (candName base i) = casefold base ++ ' ' :: natRepr i := by
  unfold candName casefold
  rw [List.map_append, List.map_cons]
  rw [show foldChar ' ' = ' ' from by decide]
  rw [show (natRepr i).map foldChar = casefold (natRepr i) from rfl, casefold_natRepr]

theorem candName_casefold_inj {base : List Char} {i j : Nat} (hi : 1 ≤ i) (hj : 1 ≤ j)
    (h : casefold (candName base i) = casefold (candName base j)) : i = j := by
  rw [casefold_candName, casefold_candName] at h
  have h2 := List.append_cancel_left h
  injection h2 with _ h3
  exact natRepr_inj hi hj h3

-- ---------------------- C8: first-free-suffix characterisation ----------------------

/-- Pigeonhole: among `names.length + 1` distinct candidate names one is
not in `names`, so the `while True` loop of `_unique_name_excluding`
terminates within the fuel supplied. -/
theorem exists_free_suffix (names : List (List Char)) (base : List Char) :
    ∃ k, k < names.length + 1 ∧ casefold (candName base (2 + k)) ∉ names := by
  by_contra hall
  push_neg at hall
  have hmem : ∀ k : Fin (names.length + 1),
      casefold (candName base (2 + (k : Nat))) ∈ names.toFinset := by
    intro k
    exact List.mem_toFinset.mpr (hall k k.isLt)
  have hinj : Set.InjOn (fun k : Fin (names.length + 1) =>
      casefold (candName base (2 + (k : Nat)))) (Finset.univ : Finset (Fin (names.length + 1))) := by
    intro a _ b _ hab
    have := candName_casefold_inj (by omega) (by omega) hab
    exact Fin.ext (by omega)
  have hcard := Finset.card_le_card_of_injOn _ (fun k _ => hmem k) hinj
  rw [Finset.card_univ, Fintype.card_fin] at hcard
  have hle := List.toFinset_card_le names
  omega

theorem findFreeName_spec (names : List (List Char)) (base : List Char) :
    ∀ fuel i, (∃ k, k < fuel ∧ casefold (candName base (i + k)) ∉ names) →
      ∃ k, k < fuel ∧ casefold (candName base (i + k)) ∉ names ∧
        (∀ m, m < k → casefold (candName base (i + m)) ∈ names) ∧
        findFreeName names base i fuel = candName base (i + k) := by
  intro fuel
  induction fuel with
  | zero =>
    rintro i ⟨k, hk, _⟩
    omega
  | succ fuel ih =>
    rintro i ⟨k, hk, hfree⟩
    by_cases h0 : casefold (candName base i) ∈ names
    · have hk0 : k ≠ 0 := by
        intro h
        subst h
        simp at hfree
        exact hfree h0
      have hex : ∃ k', k' < fuel ∧ casefold (candName base (i + 1 + k')) ∉ names := by
        refine ⟨k - 1, by omega, ?_⟩
        have : i + 1 + (k - 1) = i + k := by omega
        rw [this]
        exact hfree
      obtain ⟨k', hk', hfree', hmin', heq'⟩ := ih (i + 1) hex
      refine ⟨k' + 1, by omega, ?_, ?_, ?_⟩
      · have : i + (k' + 1) = i + 1 + k' := by omega
        rw [this]
        exact hfree'
      · intro m hm
        cases m with
        | zero => simpa using h0
        | succ m' =>
          have : i + (m' + 1) = i + 1 + m' := by omega
          rw [this]
          exact hmin' m' (by omega)
      · show findFreeName names base i (fuel + 1) = _
        unfold findFreeName
        rw [if_pos h0, heq']
        congr 1
        omega
    · refine ⟨0, by omega, by simpa using h0, by omega, ?_⟩
      show findFreeName names base i (fuel + 1) = _
      unfold findFreeName
      rw [if_neg h0]
      simp

/-- `_unique_name_excluding` returns the base name when it is free among
the active names considered, and otherwise the base suffixed with the
*first* collision-free index `i ≥ 2`. -/
theorem unique_name_spec (data : Dataset) (desired : List Char) (excl : Option (List Char)) :
    (casefold (pyStrip desired) ∉ namesExcluding data excl →
      unique_name_excluding data desired excl = pyStrip desired) ∧
    (casefold (pyStrip desired) ∈ namesExcluding data excl →
      ∃ i, 2 ≤ i ∧ unique_name_excluding data desired excl = candName (pyStrip desired) i ∧
        casefold (candName (pyStrip desired) i) ∉ namesExcluding data excl ∧
        ∀ j, 2 ≤ j → j < i → casefold (candName (pyStrip desired) j) ∈ namesExcluding data excl) := by
  constructor
  · intro h
    unfold unique_name_excluding
    rw [if_neg h]
  · intro h
    unfold unique_name_excluding
    rw [if_pos h]
    obtain ⟨k, hk, hfree⟩ := exists_free_suffix (namesExcluding data excl) (pyStrip desired)
    obtain ⟨k', hk', hfree', hmin', heq'⟩ :=
      findFreeName_spec (namesExcluding data excl) (pyStrip desired)
        ((namesExcluding data excl).length + 1) 2 ⟨k, hk, hfree⟩
    refine ⟨2 + k', by omega, heq', hfree', ?_⟩
    intro j hj2 hjlt
    have : j = 2 + (j - 2) := by omega
    rw [this]
    exact hmin' (j - 2) (by omega)

theorem filter_map_updateFirst (p q : α → Bool) (f : α → α) (m : α → β) (l : List α)
    (hq : ∀ a, q (f a) = q a) (hm : ∀ a, m (f a) = m a) :
    ((updateFirst p f l).filter q).map m = (l.filter q).map m := by
  induction l with
  | nil => rfl
  | cons x xs ih =>
    by_cases hp : p x = true
    · simp only [updateFirst, hp, if_pos]
      cases hqx : q x with
      | true => simp [List.filter_cons, hq, hqx, hm]
      | false => simp [List.filter_cons, hq, hqx]
    · simp only [updateFirst, hp, if_false, Bool.false_eq_true]
      cases hqx : q x <;> simp [List.filter_cons, hqx, ih]

/-- The in-place `type` rewrite performed by the binder does not change
the active-name set that `_unique_name_excluding` consults. -/
theorem namesExcluding_type_update (da : Dataset) (pr : Category → Bool) (tp : List Char)
    (excl : Option (List Char)) :
    namesExcluding { da with categories := updateFirst pr (fun c => { c with type := tp }) da.categories } excl =
      namesExcluding da excl := by
  unfold namesExcluding
  exact filter_map_updateFirst _ _ _ _ _ (fun a => rfl) (fun a => rfl)

theorem find?_isSome_of_any {p : α → Bool} {l : List α} (h : l.any p = true) :
    ∃ x, l.find? p = some x := by
  induction l with
  | nil => simp at h
  | cons a as ih =>
    by_cases hp : p a = true
    · exact ⟨a, by simp [List.find?, hp]⟩
    · simp only [List.any_cons, Bool.or_eq_true] at h
      rcases h with h | h
      · exact absurd h hp
      · obtain ⟨x, hx⟩ := ih h
        refine ⟨x, ?_⟩
        simp only [List.find?]
        rw [Bool.not_eq_true] at hp
        rw [hp]
        exact hx

/-- C8: the linked-category name the binder assigns for an owner named
N is the trimmed base "N - Debt" (resp. "N - Goal") when its case-fold
collides with no active category other than the owner's own linked
category; on collision it is the base followed by the *first*
collision-free numeric suffix starting at 2, against that same name
set.  `hfd`/`hfg` say the fresh uuid is really fresh. -/
theorem binder_name_spec (fd : List Char) (da : Dataset) (db : Debt)
    (fg : List Char) (ga : Dataset) (g : Goal)
    (hfd : ∀ c ∈ da.categories, c.id ≠ fd) (hfg : ∀ c ∈ ga.categories, c.id ≠ fg) :
    (∃ c, (ensure_linked_category_for_debt fd da db).1.categories.find?
        (fun x => x.id == (ensure_linked_category_for_debt fd da db).2.2) = some c ∧
      (casefold (pyStrip (pyStrip (pyOrStr db.name (lit "Debt")) ++ lit " - Debt")) ∉
          namesExcluding da (if linkedResolves da db.linked_category_id
                             then db.linked_category_id else none) →
        c.name = pyStrip (pyStrip (pyOrStr db.name (lit "Debt")) ++ lit " - Debt")) ∧
      (casefold (pyStrip (pyStrip (pyOrStr db.name (lit "Debt")) ++ lit " - Debt")) ∈
          namesExcluding da (if linkedResolves da db.linked_category_id
                             then db.linked_category_id else none) →
        ∃ i, 2 ≤ i ∧
          c.name = candName (pyStrip (pyStrip (pyOrStr db.name (lit "Debt")) ++ lit " - Debt")) i ∧
          casefold (candName (pyStrip (pyStrip (pyOrStr db.name (lit "Debt")) ++ lit " - Debt")) i) ∉
            namesExcluding da (if linkedResolves da db.linked_category_id
                               then db.linked_category_id else none) ∧
          ∀ j, 2 ≤ j → j < i →
            casefold (candName (pyStrip (pyStrip (pyOrStr db.name (lit "Debt")) ++ lit " - Debt")) j) ∈
              namesExcluding da (if linkedResolves da db.linked_category_id
                                 then db.linked_category_id else none))) ∧
    (∃ c, (ensure_linked_category_for_goal fg ga g).1.categories.find?
        (fun x => x.id == (ensure_linked_category_for_goal fg ga g).2.2) = some c ∧
      (casefold (pyStrip (pyStrip (pyOrStr g.name (lit "Goal")) ++ lit " - Goal")) ∉
          namesExcluding ga (if linkedResolves ga g.linked_category_id
                             then g.linked_category_id else none) →
        c.name = pyStrip (pyStrip (pyOrStr g.name (lit "Goal")) ++ lit " - Goal")) ∧
      (casefold (pyStrip (pyStrip (pyOrStr g.name (lit "Goal")) ++ lit " - Goal")) ∈
          namesExcluding ga (if linkedResolves ga g.linked_category_id
                             then g.linked_category_id else none) →
        ∃ i, 2 ≤ i ∧
          c.name = candName (pyStrip (pyStrip (pyOrStr g.name (lit "Goal")) ++ lit " - Goal")) i ∧
          casefold (candName (pyStrip (pyStrip (pyOrStr g.name (lit "Goal")) ++ lit " - Goal")) i) ∉
            namesExcluding ga (if linkedResolves ga g.linked_category_id
                               then g.linked_category_id else none) ∧
          ∀ j, 2 ≤ j → j < i →
            casefold (candName (pyStrip (pyStrip (pyOrStr g.name (lit "Goal")) ++ lit " - Goal")) j) ∈
              namesExcluding ga (if linkedResolves ga g.linked_category_id
                                 then g.linked_category_id else none))) := by
  constructor
  · by_cases hr : (truthy db.linked_category_id &&
        da.categories.any fun c => some c.id == db.linked_category_id) = true
    · have hrl : linkedResolves da db.linked_category_id = true := hr
      obtain ⟨v, hv⟩ : ∃ v, db.linked_category_id = some v := by
        cases hL : db.linked_category_id with
        | none => rw [hL] at hr; simp [truthy] at hr
        | some w => exact ⟨w, rfl⟩
      rw [hv] at hr hrl
      unfold ensure_linked_category_for_debt
      simp only [hv, hrl, if_true, hr, Option.getD_some]
      have hpe : (fun c : Category => some c.id == some v) = (fun c : Category => c.id == v) :=
        funext fun c => rfl
      rw [hpe]
      have hany : da.categories.any (fun c => c.id == v) = true := by
        have := (Bool.and_eq_true _ _).mp hr
        rw [hpe] at this
        exact this.2
      obtain ⟨c0, hc0⟩ := find?_isSome_of_any hany
      rw [find?_updateFirst _ _ _ (by intro a; rfl), find?_updateFirst _ _ _ (by intro a; rfl),
        hc0]
      refine ⟨_, rfl, ?_, ?_⟩
      · intro hnot
        have h := (unique_name_spec { da with categories := updateFirst (fun c => c.id == v) (fun c => { c with type := if pyOrStr db.kind (lit "payable") = lit "payable" then lit "expense" else lit "income" }) da.categories } (pyStrip (pyOrStr db.name (lit "Debt")) ++ lit " - Debt") (some v)).1
        rw [namesExcluding_type_update] at h
        exact h hnot
      · intro hyes
        have h := (unique_name_spec { da with categories := updateFirst (fun c => c.id == v) (fun c => { c with type := if pyOrStr db.kind (lit "payable") = lit "payable" then lit "expense" else lit "income" }) da.categories } (pyStrip (pyOrStr db.name (lit "Debt")) ++ lit " - Debt") (some v)).2
        rw [namesExcluding_type_update] at h
        exact h hyes
    · have hrl : linkedResolves da db.linked_category_id = false := by
        have := hr
        rw [Bool.not_eq_true] at this
        exact this
      rw [Bool.not_eq_true] at hr
      unfold ensure_linked_category_for_debt
      simp only [hr, hrl, Bool.false_eq_true, if_false]
      rw [find?_append_right (fun c hc => by simpa using hfd c hc)]
      simp only [List.find?, beq_self_eq_true]
      refine ⟨_, rfl, ?_, ?_⟩
      · intro hnot
        exact (unique_name_spec da
          (pyStrip (pyOrStr db.name (lit "Debt")) ++ lit " - Debt") none).1 hnot
      · intro hyes
        exact (unique_name_spec da
          (pyStrip (pyOrStr db.name (lit "Debt")) ++ lit " - Debt") none).2 hyes
  · by_cases hr : (truthy g.linked_category_id &&
        ga.categories.any fun c => some c.id == g.linked_category_id) = true
    · have hrl : linkedResolves ga g.linked_category_id = true := hr
      obtain ⟨v, hv⟩ : ∃ v, g.linked_category_id = some v := by
        cases hL : g.linked_category_id with
        | none => rw [hL] at hr; simp [truthy] at hr
        | some w => exact ⟨w, rfl⟩
      rw [hv] at hr hrl
      unfold ensure_linked_category_for_goal
      simp only [hv, hrl, if_true, hr, Option.getD_some]
      have hpe : (fun c : Category => some c.id == some v) = (fun c : Category => c.id == v) :=
        funext fun c => rfl
      rw [hpe]
      have hany : ga.categories.any (fun c => c.id == v) = true := by
        have := (Bool.and_eq_true _ _).mp hr
        rw [hpe] at this
        exact this.2
      obtain ⟨c0, hc0⟩ := find?_isSome_of_any hany
      rw [find?_updateFirst _ _ _ (by intro a; rfl), find?_updateFirst _ _ _ (by intro a; rfl),
        hc0]
      refine ⟨_, rfl, ?_, ?_⟩
      · intro hnot
        have h := (unique_name_spec { ga with categories := updateFirst (fun c => c.id == v) (fun c => { c with type := lit "saving" }) ga.categories } (pyStrip (pyOrStr g.name (lit "Goal")) ++ lit " - Goal") (some v)).1
        rw [namesExcluding_type_update] at h
        exact h hnot
      · intro hyes
        have h := (unique_name_spec { ga with categories := updateFirst (fun c => c.id == v) (fun c => { c with type := lit "saving" }) ga.categories } (pyStrip (pyOrStr g.name (lit "Goal")) ++ lit " - Goal") (some v)).2
        rw [namesExcluding_type_update] at h
        exact h hyes
    · have hrl : linkedResolves ga g.linked_category_id = false := by
        have := hr
        rw [Bool.not_eq_true] at this
        exact this
      rw [Bool.not_eq_true] at hr
      unfold ensure_linked_category_for_goal
      simp only [hr, hrl, Bool.false_eq_true, if_false]
      rw [find?_append_right (fun c hc => by simpa using hfg c hc)]
      simp only [List.find?, beq_self_eq_true]
      refine ⟨_, rfl, ?_, ?_⟩
      · intro hnot
        exact (unique_name_spec ga
          (pyStrip (pyOrStr g.name (lit "Goal")) ++ lit " - Goal") none).1 hnot
      · intro hyes
        exact (unique_name_spec ga
          (pyStrip (pyOrStr g.name (lit "Goal")) ++ lit " - Goal") none).2 hyes

/-- Witness for the binder naming theorem: a debt named "Car Loan"
whose base name collides with an existing active category. -/
theorem binder_name_spec_witness :
    ∃ c, (ensure_linked_category_for_debt (lit "c2") (Dataset.mk [Category.mk (lit "c1") (lit "Car Loan - Debt") (lit "expense") false] [] [] [] 0) (Debt.mk (lit "d1") (lit "Car Loan") 100 (lit "payable") none)).1.categories.find?
        (fun x => x.id == (ensure_linked_category_for_debt (lit "c2") (Dataset.mk [Category.mk (lit "c1") (lit "Car Loan - Debt") (lit "expense") false] [] [] [] 0) (Debt.mk (lit "d1") (lit "Car Loan") 100 (lit "payable") none)).2.2) = some c ∧
      (casefold (pyStrip (pyStrip (pyOrStr (Debt.mk (lit "d1") (lit "Car Loan") 100 (lit "payable") none).name (lit "Debt")) ++ lit " - Debt")) ∉
          namesExcluding (Dataset.mk [Category.mk (lit "c1") (lit "Car Loan - Debt") (lit "expense") false] [] [] [] 0) (if linkedResolves (Dataset.mk [Category.mk (lit "c1") (lit "Car Loan - Debt") (lit "expense") false] [] [] [] 0) (Debt.mk (lit "d1") (lit "Car Loan") 100 (lit "payable") none).linked_category_id then (Debt.mk (lit "d1") (lit "Car Loan") 100 (lit "payable") none).linked_category_id else none) →
        c.name = (pyStrip (pyStrip (pyOrStr (Debt.mk (lit "d1") (lit "Car Loan") 100 (lit "payable") none).name (lit "Debt")) ++ lit " - Debt"))) ∧
      (casefold (pyStrip (pyStrip (pyOrStr (Debt.mk (lit "d1") (lit "Car Loan") 100 (lit "payable") none).name (lit "Debt")) ++ lit " - Debt")) ∈
          namesExcluding (Dataset.mk [Category.mk (lit "c1") (lit "Car Loan - Debt") (lit "expense") false] [] [] [] 0) (if linkedResolves (Dataset.mk [Category.mk (lit "c1") (lit "Car Loan - Debt") (lit "expense") false] [] [] [] 0) (Debt.mk (lit "d1") (lit "Car Loan") 100 (lit "payable") none).linked_category_id then (Debt.mk (lit "d1") (lit "Car Loan") 100 (lit "payable") none).linked_category_id else none) →
        ∃ i, 2 ≤ i ∧
          c.name = candName (pyStrip (pyStrip (pyOrStr (Debt.mk (lit "d1") (lit "Car Loan") 100 (lit "payable") none).name (lit "Debt")) ++ lit " - Debt")) i ∧
          casefold (candName (pyStrip (pyStrip (pyOrStr (Debt.mk (lit "d1") (lit "Car Loan") 100 (lit "payable") none).name (lit "Debt")) ++ lit " - Debt")) i) ∉
            namesExcluding (Dataset.mk [Category.mk (lit "c1") (lit "Car Loan - Debt") (lit "expense") false] [] [] [] 0) (if linkedResolves (Dataset.mk [Category.mk (lit "c1") (lit "Car Loan - Debt") (lit "expense") false] [] [] [] 0) (Debt.mk (lit "d1") (lit "Car Loan") 100 (lit "payable") none).linked_category_id then (Debt.mk (lit "d1") (lit "Car Loan") 100 (lit "payable") none).linked_category_id else none) ∧
          ∀ j, 2 ≤ j → j < i →
            casefold (candName (pyStrip (pyStrip (pyOrStr (Debt.mk (lit "d1") (lit "Car Loan") 100 (lit "payable") none).name (lit "Debt")) ++ lit " - Debt")) j) ∈
              namesExcluding (Dataset.mk [Category.mk (lit "c1") (lit "Car Loan - Debt") (lit "expense") false] [] [] [] 0) (if linkedResolves (Dataset.mk [Category.mk (lit "c1") (lit "Car Loan - Debt") (lit "expense") false] [] [] [] 0) (Debt.mk (lit "d1") (lit "Car Loan") 100 (lit "payable") none).linked_category_id then (Debt.mk (lit "d1") (lit "Car Loan") 100 (lit "payable") none).linked_category_id else none)) :=
  (binder_name_spec (lit "c2") (Dataset.mk [Category.mk (lit "c1") (lit "Car Loan - Debt") (lit "expense") false] [] [] [] 0) (Debt.mk (lit "d1") (lit "Car Loan") 100 (lit "payable") none)
    (lit "c9") (Dataset.mk [] [] [] [] 0) (Goal.mk (lit "g1") (lit "G") 0 0 [] [] none)
    (by decide) (by simp)).1

-- ---------------------- C1: accounting lemmas ----------------------

theorem recomputeDebt_eq_sum (cat kind : List Char) (l : List Txn) :
    recomputeDebt cat kind l = (l.map (txnContrib cat kind)).sum := by
  induction l with
  | nil => rfl
  | cons t ts ih =>
    unfold recomputeDebt at ih ⊢
    by_cases ht : t.category_id = some cat
    · rw [List.filter_cons_of_pos (by simp [ht]), List.map_cons, List.sum_cons, ih,
        List.map_cons, List.sum_cons, txnContrib, if_pos ht]
    · rw [List.filter_cons_of_neg (by simp [ht]), ih, List.map_cons, List.sum_cons,
        txnContrib, if_neg ht, zero_add]

theorem sum_map_updateFirst_const {m : α → ℚ} {p : α → Bool} {nt : α} {l : List α} {old : α}
    (h : l.find? p = some old) :
    ((updateFirst p (fun _ => nt) l).map m).sum = (l.map m).sum - m old + m nt := by
  induction l with
  | nil => simp [List.find?] at h
  | cons x xs ih =>
    cases hp : p x with
    | true =>
      simp only [List.find?, hp] at h
      injection h with h
      subst h
      simp only [updateFirst, hp, if_pos, List.map_cons, List.sum_cons]
      ring
    | false =>
      simp only [List.find?, hp] at h
      simp only [updateFirst, hp, Bool.false_eq_true, if_false, List.map_cons, List.sum_cons,
        ih h]
      ring

theorem sum_map_filter_ne {m : Txn → ℚ} {tid : List Char} {l : List Txn} {old : Txn}
    (hN : (l.map Txn.id).Nodup) (h : l.find? (fun t => t.id == tid) = some old) :
    ((l.filter (fun t => t.id != tid)).map m).sum = (l.map m).sum - m old := by
  induction l with
  | nil => simp [List.find?] at h
  | cons x xs ih =>
    simp only [List.map_cons, List.nodup_cons] at hN
    cases hp : (x.id == tid) with
    | true =>
      simp only [List.find?, hp] at h
      injection h with h
      subst h
      have hxeq : x.id = tid := eq_of_beq hp
      have hxs : xs.filter (fun t => t.id != tid) = xs := by
        rw [List.filter_eq_self]
        intro t ht
        simp only [bne_iff_ne, ne_eq]
        intro he
        exact hN.1 (List.mem_map.mpr ⟨t, ht, he.trans hxeq.symm⟩)
      rw [List.filter_cons_of_neg (by simp [hxeq]), hxs, List.map_cons, List.sum_cons]
      ring
    | false =>
      simp only [List.find?, hp] at h
      have hne : x.id ≠ tid := by
        intro he
        rw [he, beq_self_eq_true] at hp
        exact Bool.noConfusion hp
      rw [List.filter_cons_of_pos (by simpa [bne_iff_ne] using hne), List.map_cons,
        List.sum_cons, ih hN.2 h, List.map_cons, List.sum_cons]
      ring

theorem nodup_ids_filter {l : List Txn} (q : Txn → Bool) (hN : (l.map Txn.id).Nodup) :
    ((l.filter q).map Txn.id).Nodup :=
  hN.sublist ((@List.filter_sublist _ q l).map Txn.id)

theorem sum_contrib_zero {cat kind : List Char} {l : List Txn}
    (h : ∀ t ∈ l, t.category_id ≠ some cat) :
    (l.map (txnContrib cat kind)).sum = 0 := by
  rw [List.sum_eq_zero]
  intro x hx
  obtain ⟨t, ht, rfl⟩ := List.mem_map.mp hx
  rw [txnContrib, if_neg (h t ht)]

theorem beq_disj_of_ne {tc : Option (List Char)} {cat : List Char} (hne : tc ≠ some cat) :
    ∀ a : Debt, (a.linked_category_id == tc) = true →
      (a.linked_category_id == some cat) = false := by
  intro a ha
  have : a.linked_category_id = tc := eq_of_beq ha
  rw [this]
  cases htc : (tc == some cat) with
  | true => exact absurd (eq_of_beq htc) hne
  | false => rfl

/-- One transaction operation preserves the replay invariant: the first
debt linked to `cat` carries exactly its starting balance plus the sum
of `debt_effect` over the live transactions recorded against `cat`. -/
theorem debt_step (cat : List Char) (hc : cat ≠ []) (debt0 : Debt) (op : Op) (d : Dataset)
    (hI : firstDebt cat d = some { debt0 with balance :=
        debt0.balance + (d.transactions.map (txnContrib cat debt0.kind)).sum })
    (hN : (d.transactions.map Txn.id).Nodup)
    (hop : txnOpOk cat d op) :
    firstDebt cat (applyOp d op) = some { debt0 with balance :=
        debt0.balance + ((applyOp d op).transactions.map (txnContrib cat debt0.kind)).sum } ∧
    ((applyOp d op).transactions.map Txn.id).Nodup := by
  cases op with
  | txnAdd newId today p =>
    obtain ⟨hfr, hcl⟩ := hop
    unfold applyOp
    simp only [runOp]
    cases hE : api_add_txn newId today p d with
    | error e => exact ⟨hI, hN⟩
    | ok d' =>
      unfold api_add_txn at hE
      dsimp only at hE
      cases hC : d.categories.find? (fun c => some c.id == p.category_id) with
      | none => rw [hC] at hE; exact Except.noConfusion hE
      | some c =>
        rw [hC] at hE
        simp only [Except.ok.injEq] at hE
        subst hE
        have hany : d.categories.any (fun x => some x.id == p.category_id) = true := by
          have hp := List.find?_some hC
          exact List.any_eq_true.mpr ⟨c, List.mem_of_find?_eq_some hC, hp⟩
        have hNod : ((d.transactions ++
            [Txn.mk newId (pyOrOpt p.date today) p.category_id (p.amount.getD 0) (p.note.getD [])
              c.type (p.use_open_balance.getD false) (p.debt_claim.getD false)
              (p.goal_withdrawal.getD false)]).map Txn.id).Nodup := by
          rw [List.map_append]
          refine List.Nodup.append hN (by simp) ?_
          intro a ha hb
          simp only [List.map_cons, List.map_nil, List.mem_singleton] at hb
          obtain ⟨t, ht, hteq⟩ := List.mem_map.mp ha
          exact hfr t ht (hteq.trans hb)
        refine ⟨?_, hNod⟩
        unfold firstDebt at hI ⊢
        dsimp only
        simp only [List.map_append, List.sum_append, List.map_cons, List.map_nil,
          List.sum_cons, List.sum_nil, add_zero]
        by_cases htc : p.category_id = some cat
        · unfold adjDebts
          rw [htc, find?_updateFirst _ _ _ (by intro a; rfl), hI]
          have heff := hcl hany htc _ hI
          simp only [Option.map_some']
          congr 1
          have hmax : max 0 (debt0.balance +
              (d.transactions.map (txnContrib cat debt0.kind)).sum +
              1 * debt_effect debt0.kind (p.amount.getD 0) (p.debt_claim.getD false)) =
              debt0.balance + (d.transactions.map (txnContrib cat debt0.kind)).sum +
              debt_effect debt0.kind (p.amount.getD 0) (p.debt_claim.getD false) := by
            rw [one_mul]
            exact max_eq_right heff
          simp only [txnContrib]
          rw [if_pos trivial, hmax, add_assoc]
        · unfold adjDebts
          rw [find?_updateFirst_disj _ _ _ _ (beq_disj_of_ne htc) (by intro a; rfl), hI]
          simp only [txnContrib]
          rw [if_neg htc, add_zero]
  | txnUpdate tid p =>
    unfold applyOp
    simp only [runOp]
    cases hE : api_update_txn tid p d with
    | error e => exact ⟨hI, hN⟩
    | ok d' =>
      unfold api_update_txn at hE
      dsimp only at hE
      cases hF : d.transactions.find? (fun t => t.id == tid) with
      | none => rw [hF] at hE; exact Except.noConfusion hE
      | some old =>
        rw [hF] at hE
        dsimp only at hE
        cases hC : d.categories.find? (fun c => some c.id == mergeCat old p) with
        | none => rw [hC] at hE; exact Except.noConfusion hE
        | some c =>
          rw [hC] at hE
          simp only [Except.ok.injEq] at hE
          subst hE
          have hany : d.categories.any (fun x => some x.id == mergeCat old p) = true := by
            have hp := List.find?_some hC
            exact List.any_eq_true.mpr ⟨c, List.mem_of_find?_eq_some hC, hp⟩
          have hcl := hop old hF hany _ hI
          have hNod : ((updateFirst (fun t => t.id == tid)
              (fun _ => Txn.mk old.id (p.date.getD old.date) (mergeCat old p)
                (p.amount.getD old.amount) (p.note.getD old.note) c.type
                (p.use_open_balance.getD old.use_open_balance)
                (p.debt_claim.getD old.debt_claim) (p.goal_withdrawal.getD old.goal_withdrawal))
              d.transactions).map Txn.id).Nodup := by
            rw [map_updateFirst_of_find? _ _ _ _ hF rfl]
            exact hN
          unfold firstDebt at hI ⊢
          dsimp only
          simp only [apply_ite Dataset.transactions, apply_ite Dataset.debts, ite_self]
          refine ⟨?_, hNod⟩
          rw [sum_map_updateFirst_const hF]
          by_cases hoc : old.category_id = some cat
          · have htru : truthy old.category_id = true := by
              rw [hoc]
              simp [truthy, hc]
            rw [if_pos htru]
            have hb1 := (hcl.1 hoc)
            by_cases hnc : mergeCat old p = some cat
            · have htru2 : truthy (mergeCat old p) = true := by
                rw [hnc]
                simp [truthy, hc]
              rw [if_pos htru2]
              unfold adjDebts
              rw [hoc, hnc]
              rw [find?_updateFirst _ _ _ (by intro a; rfl),
                find?_updateFirst _ _ _ (by intro a; rfl), hI]
              simp only [Option.map_some']
              congr 1
              have hb2 := hcl.2 hnc
              rw [if_pos hoc] at hb2
              have e1 : max 0 (debt0.balance +
                  (d.transactions.map (txnContrib cat debt0.kind)).sum +
                  -1 * debt_effect debt0.kind old.amount old.debt_claim) =
                  debt0.balance + (d.transactions.map (txnContrib cat debt0.kind)).sum -
                  debt_effect debt0.kind old.amount old.debt_claim := by
                rw [neg_one_mul]
                rw [show debt0.balance + (d.transactions.map (txnContrib cat debt0.kind)).sum +
                    -debt_effect debt0.kind old.amount old.debt_claim =
                    debt0.balance + (d.transactions.map (txnContrib cat debt0.kind)).sum -
                    debt_effect debt0.kind old.amount old.debt_claim from by ring]
                exact max_eq_right hb1
              rw [e1]
              have e2 : max 0 (debt0.balance +
                  (d.transactions.map (txnContrib cat debt0.kind)).sum -
                  debt_effect debt0.kind old.amount old.debt_claim +
                  1 * debt_effect debt0.kind (p.amount.getD old.amount)
                    (p.debt_claim.getD old.debt_claim)) =
                  debt0.balance + (d.transactions.map (txnContrib cat debt0.kind)).sum -
                  debt_effect debt0.kind old.amount old.debt_claim +
                  debt_effect debt0.kind (p.amount.getD old.amount)
                    (p.debt_claim.getD old.debt_claim) := by
                rw [one_mul]
                exact max_eq_right hb2
              rw [e2, txnContrib, if_pos hoc, txnContrib]
              dsimp only
              rw [if_pos rfl]
              congr 1
              ring
            · have hcontrib : txnContrib cat debt0.kind (Txn.mk old.id (p.date.getD old.date)
                  (mergeCat old p) (p.amount.getD old.amount) (p.note.getD old.note) c.type
                  (p.use_open_balance.getD old.use_open_balance) (p.debt_claim.getD old.debt_claim)
                  (p.goal_withdrawal.getD old.goal_withdrawal)) = 0 := by
                rw [txnContrib]
                dsimp only
                rw [if_neg hnc]
              by_cases htru2 : truthy (mergeCat old p) = true
              · rw [if_pos htru2]
                unfold adjDebts
                rw [hoc]
                rw [find?_updateFirst_disj _ _ _ _ (beq_disj_of_ne hnc) (by intro a; rfl)]
                rw [find?_updateFirst _ _ _ (by intro a; rfl), hI]
                simp only [Option.map_some']
                congr 1
                have e1 : max 0 (debt0.balance +
                    (d.transactions.map (txnContrib cat debt0.kind)).sum +
                    -1 * debt_effect debt0.kind old.amount old.debt_claim) =
                    debt0.balance + (d.transactions.map (txnContrib cat debt0.kind)).sum -
                    debt_effect debt0.kind old.amount old.debt_claim := by
                  rw [neg_one_mul]
                  rw [show debt0.balance + (d.transactions.map (txnContrib cat debt0.kind)).sum +
                      -debt_effect debt0.kind old.amount old.debt_claim =
                      debt0.balance + (d.transactions.map (txnContrib cat debt0.kind)).sum -
                      debt_effect debt0.kind old.amount old.debt_claim from by ring]
                  exact max_eq_right hb1
                rw [e1, hcontrib, txnContrib, if_pos hoc]
                congr 1
                ring
              · rw [if_neg htru2]
                unfold adjDebts
                rw [hoc]
                rw [find?_updateFirst _ _ _ (by intro a; rfl), hI]
                simp only [Option.map_some']
                congr 1
                have e1 : max 0 (debt0.balance +
                    (d.transactions.map (txnContrib cat debt0.kind)).sum +
                    -1 * debt_effect debt0.kind old.amount old.debt_claim) =
                    debt0.balance + (d.transactions.map (txnContrib cat debt0.kind)).sum -
                    debt_effect debt0.kind old.amount old.debt_claim := by
                  rw [neg_one_mul]
                  rw [show debt0.balance + (d.transactions.map (txnContrib cat debt0.kind)).sum +
                      -debt_effect debt0.kind old.amount old.debt_claim =
                      debt0.balance + (d.transactions.map (txnContrib cat debt0.kind)).sum -
                      debt_effect debt0.kind old.amount old.debt_claim from by ring]
                  exact max_eq_right hb1
                rw [e1, hcontrib, txnContrib, if_pos hoc]
                congr 1
                ring
          · have hcontribOld : txnContrib cat debt0.kind old = 0 := by
              rw [txnContrib, if_neg hoc]
            by_cases hnc : mergeCat old p = some cat
            · have htru2 : truthy (mergeCat old p) = true := by
                rw [hnc]
                simp [truthy, hc]
              have hb2 := hcl.2 hnc
              rw [if_neg hoc] at hb2
              by_cases htru : truthy old.category_id = true
              · rw [if_pos htru]
                rw [if_pos htru2]
                unfold adjDebts
                rw [hnc]
                rw [find?_updateFirst _ _ _ (by intro a; rfl)]
                rw [find?_updateFirst_disj _ _ _ _ (beq_disj_of_ne hoc) (by intro a; rfl), hI]
                simp only [Option.map_some']
                congr 1
                have e2 : max 0 (debt0.balance +
                    (d.transactions.map (txnContrib cat debt0.kind)).sum +
                    1 * debt_effect debt0.kind (p.amount.getD old.amount)
                      (p.debt_claim.getD old.debt_claim)) =
                    debt0.balance + (d.transactions.map (txnContrib cat debt0.kind)).sum +
                    debt_effect debt0.kind (p.amount.getD old.amount)
                      (p.debt_claim.getD old.debt_claim) := by
                  rw [one_mul]
                  exact max_eq_right hb2
                rw [e2, hcontribOld, txnContrib]
                dsimp only
                rw [if_pos rfl]
                congr 1
                ring
              · rw [if_neg htru]
                rw [if_pos htru2]
                unfold adjDebts
                rw [hnc]
                rw [find?_updateFirst _ _ _ (by intro a; rfl), hI]
                simp only [Option.map_some']
                congr 1
                have e2 : max 0 (debt0.balance +
                    (d.transactions.map (txnContrib cat debt0.kind)).sum +
                    1 * debt_effect debt0.kind (p.amount.getD old.amount)
                      (p.debt_claim.getD old.debt_claim)) =
                    debt0.balance + (d.transactions.map (txnContrib cat debt0.kind)).sum +
                    debt_effect debt0.kind (p.amount.getD old.amount)
                      (p.debt_claim.getD old.debt_claim) := by
                  rw [one_mul]
                  exact max_eq_right hb2
                rw [e2, hcontribOld, txnContrib]
                dsimp only
                rw [if_pos rfl]
                congr 1
                ring
            · have hcontribNew : txnContrib cat debt0.kind (Txn.mk old.id (p.date.getD old.date)
                  (mergeCat old p) (p.amount.getD old.amount) (p.note.getD old.note) c.type
                  (p.use_open_balance.getD old.use_open_balance) (p.debt_claim.getD old.debt_claim)
                  (p.goal_withdrawal.getD old.goal_withdrawal)) = 0 := by
                rw [txnContrib]
                dsimp only
                rw [if_neg hnc]
              have hgoal : debt0.balance + ((d.transactions.map (txnContrib cat debt0.kind)).sum -
                  txnContrib cat debt0.kind old + txnContrib cat debt0.kind
                    (Txn.mk old.id (p.date.getD old.date) (mergeCat old p)
                      (p.amount.getD old.amount) (p.note.getD old.note) c.type
                      (p.use_open_balance.getD old.use_open_balance)
                      (p.debt_claim.getD old.debt_claim)
                      (p.goal_withdrawal.getD old.goal_withdrawal))) =
                  debt0.balance + (d.transactions.map (txnContrib cat debt0.kind)).sum := by
                rw [hcontribOld, hcontribNew]
                ring
              rw [hgoal]
              by_cases htru : truthy old.category_id = true <;>
                by_cases htru2 : truthy (mergeCat old p) = true
              · rw [if_pos htru]
                rw [if_pos htru2]
                unfold adjDebts
                rw [find?_updateFirst_disj _ _ _ _ (beq_disj_of_ne hnc) (by intro a; rfl)]
                rw [find?_updateFirst_disj _ _ _ _ (beq_disj_of_ne hoc) (by intro a; rfl)]
                exact hI
              · rw [if_pos htru]
                rw [if_neg htru2]
                unfold adjDebts
                rw [find?_updateFirst_disj _ _ _ _ (beq_disj_of_ne hoc) (by intro a; rfl)]
                exact hI
              · rw [if_neg htru]
                rw [if_pos htru2]
                unfold adjDebts
                rw [find?_updateFirst_disj _ _ _ _ (beq_disj_of_ne hnc) (by intro a; rfl)]
                exact hI
              · rw [if_neg htru]
                rw [if_neg htru2]
                exact hI
  | txnDelete tid =>
    unfold applyOp
    simp only [runOp]
    cases hE : api_delete_txn tid d with
    | error e => exact ⟨hI, hN⟩
    | ok d' =>
      unfold api_delete_txn at hE
      cases hF : d.transactions.find? (fun t => t.id == tid) with
      | none => rw [hF] at hE; exact Except.noConfusion hE
      | some old =>
        rw [hF] at hE
        simp only [Except.ok.injEq] at hE
        subst hE
        refine ⟨?_, nodup_ids_filter _ hN⟩
        unfold firstDebt at hI ⊢
        dsimp only
        rw [sum_map_filter_ne hN hF]
        by_cases hoc : old.category_id = some cat
        · have hb1 := hop old hF hoc _ hI
          unfold adjDebts
          rw [hoc, find?_updateFirst _ _ _ (by intro a; rfl), hI]
          simp only [Option.map_some']
          congr 1
          have e1 : max 0 (debt0.balance +
              (d.transactions.map (txnContrib cat debt0.kind)).sum +
              -1 * debt_effect debt0.kind old.amount old.debt_claim) =
              debt0.balance + (d.transactions.map (txnContrib cat debt0.kind)).sum -
              debt_effect debt0.kind old.amount old.debt_claim := by
            rw [neg_one_mul]
            rw [show debt0.balance + (d.transactions.map (txnContrib cat debt0.kind)).sum +
                -debt_effect debt0.kind old.amount old.debt_claim =
                debt0.balance + (d.transactions.map (txnContrib cat debt0.kind)).sum -
                debt_effect debt0.kind old.amount old.debt_claim from by ring]
            exact max_eq_right hb1
          rw [e1, txnContrib, if_pos hoc]
          congr 1
          ring
        · unfold adjDebts
          rw [find?_updateFirst_disj _ _ _ _ (beq_disj_of_ne hoc) (by intro a; rfl), hI]
          rw [txnContrib, if_neg hoc]
          rw [sub_zero]
  | catAdd a p => exact hop.elim
  | catUpdate a p => exact hop.elim
  | catDelete a => exact hop.elim
  | debtAdd a b p => exact hop.elim
  | debtUpdate a b p => exact hop.elim
  | debtDelete a => exact hop.elim
  | goalAdd a b c p => exact hop.elim
  | goalUpdate a b c p => exact hop.elim
  | goalDelete a => exact hop.elim
  | openBalance v => exact hop.elim
  | reset a b c => exact hop.elim

theorem debt_replay_aux (cat : List Char) (hc : cat ≠ []) (debt0 : Debt) (ops : List Op) :
    ∀ d : Dataset,
      firstDebt cat d = some { debt0 with balance :=
        debt0.balance + (d.transactions.map (txnContrib cat debt0.kind)).sum } →
      (d.transactions.map Txn.id).Nodup →
      seqOk cat d ops →
      firstDebt cat (applyOps d ops) = some { debt0 with balance :=
        debt0.balance + ((applyOps d ops).transactions.map (txnContrib cat debt0.kind)).sum } ∧
      ((applyOps d ops).transactions.map Txn.id).Nodup := by
  induction ops with
  | nil => intro d hI hN _; exact ⟨hI, hN⟩
  | cons op ops ih =>
    intro d hI hN hseq
    obtain ⟨hop, hseq2⟩ := hseq
    obtain ⟨hI2, hN2⟩ := debt_step cat hc debt0 op d hI hN hop
    exact ih (applyOp d op) hI2 hN2 hseq2

/-- C1: for every clamp-free sequence of transaction create / update /
delete operations (`seqOk`: the ids created are fresh and no
`max(0, ...)` clamp fires on the debt linked to `cat`), starting from a
dataset whose live transactions do not yet touch `cat`, replaying the
sequence leaves the balance of the first debt linked to `cat` exactly
equal to its initial balance plus a full recompute (`recomputeDebt`,
summing `_debt_effect` over the final live transactions recorded
against `cat`). -/
theorem debt_replay_matches_recompute (cat : List Char) (hc : cat ≠ []) (ops : List Op)
    (d : Dataset) (debt0 : Debt)
    (h0 : firstDebt cat d = some debt0)
    (hno : ∀ t ∈ d.transactions, t.category_id ≠ some cat)
    (hN : (d.transactions.map Txn.id).Nodup)
    (hseq : seqOk cat d ops) :
    firstDebt cat (applyOps d ops) =
      some { debt0 with
        balance := debt0.balance + recomputeDebt cat debt0.kind (applyOps d ops).transactions } := by
  have hI : firstDebt cat d =
      some { debt0 with
        balance := debt0.balance + (d.transactions.map (txnContrib cat debt0.kind)).sum } := by
    rw [sum_contrib_zero hno, add_zero]
    exact h0
  obtain ⟨h1, _⟩ := debt_replay_aux cat hc debt0 ops d hI hN hseq
  rw [recomputeDebt_eq_sum]
  exact h1

/-- The dataset of the replay witness: one expense category `c1` owned
by debt `d1` (balance 100, payable), no transactions yet. -/
def replayData : Dataset :=
  ⟨[⟨lit "c1", lit "Card - Debt", lit "expense", false⟩], [],
   [⟨lit "d1", lit "Card", 100, lit "payable", some (lit "c1")⟩], [], 0⟩

/-- The debt of the replay witness. -/
def replayDebt : Debt := ⟨lit "d1", lit "Card", 100, lit "payable", some (lit "c1")⟩

/-- The transaction payload of the replay witness: 30 against `c1`,
no debt claim. -/
def replayPayload : TxnPayload :=
  ⟨none, some (lit "c1"), some 30, none, none, some false, none⟩

theorem debt_replay_matches_recompute_witness :
    firstDebt (lit "c1")
        (applyOps replayData [Op.txnAdd (lit "t1") (lit "d20") replayPayload]) =
      some { replayDebt with
        balance := replayDebt.balance + recomputeDebt (lit "c1") replayDebt.kind (applyOps replayData [Op.txnAdd (lit "t1") (lit "d20") replayPayload]).transactions } := by
  refine debt_replay_matches_recompute (lit "c1") (by decide) _ replayData replayDebt rfl
    ?_ ?_ ?_
  · intro t ht
    simp [replayData] at ht
  · simp [replayData]
  · refine ⟨⟨?_, ?_⟩, trivial⟩
    · intro t ht
      simp [replayData] at ht
    · intro hany hcid db hdb
      rw [show firstDebt (lit "c1") replayData = some replayDebt from rfl] at hdb
      injection hdb with h
      subst h
      norm_num [replayDebt, replayPayload, debt_effect, pyOrStr, lit]

end Koinfo
